import Mathlib

/-!
# Verification of the India-crime-analysis dashboard pipeline

Shallow embedding of the data pipeline of `src/app.py`:

* `load_data` (lines 42-112): schema normalization of one raw pandas table,
* `get_all_states_df` (lines 35-38): the region catalog from geojson features,
* the filter / aggregation stage (lines 130-170, 214-228): `state_agg`,
  the left merge against the catalog, the KPI sums and `sub_grp`.

Tables are modelled columnar, as pandas holds them: a list of named columns,
each column either an object column (`ColData.obj`, cells are strings, `none`
is NaN) or a numeric column (`ColData.num`, cells are rationals, `none` is
NaN).  Floats are modelled as `ℚ`; `pd.to_numeric` string parsing is modelled
by a plain decimal parser (sign, digits, optional fraction).  Python
exceptions raised by the pipeline are the constructors of `LoadError`:
`LoadError.noNumericColumns` is the `ValueError` raised at line 82 of
`app.py`; `LoadError.missingColumn` is the pandas `KeyError` raised when a
missing column is accessed (as `df["Area_Name"]` at line 110 does when no
region column was found); `LoadError.nonIntegralYear` is the `TypeError`
the safe cast `astype("Int64")` of line 52 raises when the coerced `Year`
column holds a non-integral value; `LoadError.scalarFillna` is the
`AttributeError` of lines 70/72/73 — when the optional column is missing,
`df.get(col, 0)` returns the scalar `0`, `pd.to_numeric` passes it through
unchanged, and `.fillna` on an `int` does not exist.
-/

namespace IndiaCrime

/-! ## Scalar helpers -/

/-- Whitespace recognised by `str.strip` (ASCII fragment). -/
def isSpaceChar (c : Char) : Bool :=
  c = ' ' || c = '\t' || c = '\n' || c = '\r'

/-- `str.strip`: drop leading and trailing whitespace. -/
def pyStripChars (cs : List Char) : List Char :=
  ((cs.dropWhile isSpaceChar).reverse.dropWhile isSpaceChar).reverse

/-- `str.strip` on a string. -/
def pyStrip (s : String) : String := ⟨pyStripChars s.data⟩

/-- ASCII lower-casing of one character (column names are ASCII). -/
def lowerChar (c : Char) : Char :=
  if c = 'A' then 'a' else if c = 'B' then 'b' else if c = 'C' then 'c'
  else if c = 'D' then 'd' else if c = 'E' then 'e' else if c = 'F' then 'f'
  else if c = 'G' then 'g' else if c = 'H' then 'h' else if c = 'I' then 'i'
  else if c = 'J' then 'j' else if c = 'K' then 'k' else if c = 'L' then 'l'
  else if c = 'M' then 'm' else if c = 'N' then 'n' else if c = 'O' then 'o'
  else if c = 'P' then 'p' else if c = 'Q' then 'q' else if c = 'R' then 'r'
  else if c = 'S' then 's' else if c = 'T' then 't' else if c = 'U' then 'u'
  else if c = 'V' then 'v' else if c = 'W' then 'w' else if c = 'X' then 'x'
  else if c = 'Y' then 'y' else if c = 'Z' then 'z' else c

/-- Does `pat` occur as a leading run of `s`? -/
def leadMatch : List Char → List Char → Bool
  | [], _ => true
  | _ :: _, [] => false
  | p :: ps, c :: cs => (p == c) && leadMatch ps cs

/-- Does `pat` occur as a contiguous subsequence of `s`?  (Python `in`.) -/
def hasSub (pat : List Char) : List Char → Bool
  | [] => leadMatch pat []
  | c :: cs => leadMatch pat (c :: cs) || hasSub pat cs

/-- Line 84 of `app.py`: does the (lower-cased) column name contain
`"case"`, `"crime"` or `"total"`? -/
def keywordMatch (c : String) : Bool :=
  let l := c.data.map lowerChar
  hasSub "case".data l || hasSub "crime".data l || hasSub "total".data l

/-- One decimal digit. -/
def digitVal? (c : Char) : Option ℕ :=
  if c.isDigit then some (c.toNat - 48) else none

/-- Read a digit run as a natural number; any non-digit fails. -/
def digitsVal? (cs : List Char) : Option ℕ :=
  cs.foldl
    (fun acc c =>
      match acc, digitVal? c with
      | some n, some d => some (n * 10 + d)
      | _, _ => none)
    (some 0)

/-- Unsigned decimal literal: digits with an optional fractional part. -/
def parseUnsigned? (cs : List Char) : Option ℚ :=
  let ip := cs.takeWhile (fun c => !(c == '.'))
  let rest := cs.dropWhile (fun c => !(c == '.'))
  match rest with
  | [] =>
    if ip.isEmpty then none else (digitsVal? ip).map (fun n => (n : ℚ))
  | _ :: frac =>
    if ip.isEmpty && frac.isEmpty then none
    else
      match digitsVal? ip, digitsVal? frac with
      | some n, some f => some ((n : ℚ) + (f : ℚ) / (10 : ℚ) ^ frac.length)
      | _, _ => none

/-- `pd.to_numeric` on one string cell: a signed decimal literal, or failure. -/
def parseRat? (s : String) : Option ℚ :=
  match s.data with
  | [] => none
  | '-' :: cs => (parseUnsigned? cs).map (fun q => -q)
  | '+' :: cs => parseUnsigned? cs
  | cs => parseUnsigned? cs

/-- The `np.where(crimes > 0, recovered / crimes, 0)` formula of lines 76 and
154-158 of `app.py`. -/
def recoveryRate (crimes recovered : ℚ) : ℚ :=
  if 0 < crimes then recovered / crimes else 0

/-- Python `int()` on a float value: truncation toward zero. -/
def pyInt (q : ℚ) : ℤ := Int.tdiv q.num q.den

/-- The `STATE_MAP` canonicalization table of lines 101-109 of `app.py`. -/
def STATE_MAP : List (String × String) :=
  [("NCT of Delhi", "Delhi"),
   ("Orissa", "Odisha"),
   ("Uttaranchal", "Uttarakhand"),
   ("Jammu & Kashmir", "Jammu and Kashmir"),
   ("Andaman & Nicobar Islands", "Andaman and Nicobar"),
   ("Dadra & Nagar Haveli", "Dadra and Nagar Haveli"),
   ("Daman & Diu", "Daman and Diu")]

/-- `Series.replace(STATE_MAP)` on one cell: exact-match substitution. -/
def canonName (s : String) : String :=
  ((STATE_MAP.find? (fun p => decide (p.1 = s))).map Prod.snd).getD s

/-! ## Tables -/

/-- One pandas column: object dtype (string cells, `none` = NaN) or numeric
dtype (`none` = NaN). -/
inductive ColData where
  | obj (vals : List (Option String))
  | num (vals : List (Option ℚ))
deriving DecidableEq, Repr

/-- A pandas data frame: named columns in order. -/
abbrev Table := List (String × ColData)

def tblNames (t : Table) : List String := t.map Prod.fst

/-- `df[c]`: the first column named `c`, if any. -/
def getCol : Table → String → Option ColData
  | [], _ => none
  | p :: ps, c => if p.1 = c then some p.2 else getCol ps c

/-- Replace every column named `c` in place. -/
def setColIn : Table → String → ColData → Table
  | [], _, _ => []
  | p :: ps, c, d =>
    (if p.1 = c then (c, d) else p) :: setColIn ps c d

/-- `df[c] = d`: replace the column in place, or append it at the end. -/
def setCol (t : Table) (c : String) (d : ColData) : Table :=
  if c ∈ tblNames t then setColIn t c d else t ++ [(c, d)]

/-- `df.rename(columns={o: n})`. -/
def renameCol (t : Table) (o n : String) : Table :=
  t.map (fun p => if p.1 = o then (n, p.2) else p)

def colLen : ColData → ℕ
  | .obj vs => vs.length
  | .num vs => vs.length

/-- Number of rows of the frame (length of its first column). -/
def nRows : Table → ℕ
  | [] => 0
  | p :: _ => colLen p.2

/-! ## `load_data` steps (lines 42-112 of `app.py`) -/

/-- `astype(str).str.strip()` on one object cell: NaN prints as `"nan"`. -/
def stripCell : Option String → Option String
  | none => some "nan"
  | some s => some (pyStrip s)

def stripCol : ColData → ColData
  | .obj vs => .obj (vs.map stripCell)
  | .num vs => .num vs

/-- Lines 46-48: strip every object column. -/
def stripStep (t : Table) : Table := t.map (fun p => (p.1, stripCol p.2))

/-- `pd.to_numeric(col, errors="coerce")`: unparseable cells become NaN.
(The subsequent `astype("Int64")` of line 52 is modelled by keeping the
numeric column as-is.) -/
def coerceNum : ColData → ColData
  | .obj vs => .num (vs.map (fun v => v.bind parseRat?))
  | .num vs => .num vs

/-- Exceptions raised by `load_data`: the `ValueError` of line 82, the
pandas `KeyError` on access to a missing column, the `TypeError` of the
safe `astype("Int64")` cast of line 52, and the `AttributeError` of lines
70/72/73 (`.fillna` on the scalar `0` that `df.get` returns when the named
column is missing). -/
inductive LoadError where
  | noNumericColumns (filePath : String)
  | missingColumn (col : String)
  | nonIntegralYear
  | scalarFillna (col : String)
deriving DecidableEq, Repr

/-- Whether every cell of a column is an integer (NaN allowed): the
condition under which `astype("Int64")` casts a coerced column safely.
Object columns cannot reach the cast (line 52 coerces first). -/
def integralCol : ColData → Bool
  | .obj _ => false
  | .num vs => vs.all (fun v => match v with | none => true | some q => decide (q.den = 1))

/-- Lines 51-52: coerce the `Year` column when present, then cast it to
nullable `Int64`.  The cast is a safe cast: it raises a `TypeError` when
some coerced cell is not an integer. -/
def yearStep (t : Table) : Except LoadError Table :=
  match getCol t "Year" with
  | none => .ok t
  | some d =>
    if integralCol (coerceNum d) then .ok (setCol t "Year" (coerceNum d))
    else .error .nonIntegralYear

/-- Line 57: the fixed ordered alias list for the region column. -/
def areaAliases : List String :=
  ["STATE/UT", "State/UT", "State", "STATE", "District", "DISTRICT"]

/-- Lines 55-60: rename the first alias found to `Area_Name`.  Note that the
code raises nothing here when no alias is found either. -/
def resolveArea (t : Table) : Table :=
  if "Area_Name" ∈ tblNames t then t
  else
    match areaAliases.find? (fun a => decide (a ∈ tblNames t)) with
    | some a => renameCol t a "Area_Name"
    | none => t

def cellParses : Option String → Bool
  | none => true
  | some s => (parseRat? s).isSome

/-- `pd.to_numeric(col, errors="ignore")`: the column converts only when
every cell parses (or is NaN); otherwise it is left untouched. -/
def coerceTry : ColData → ColData
  | .obj vs =>
    if vs.all cellParses then .num (vs.map (fun v => v.bind parseRat?))
    else .obj vs
  | .num vs => .num vs

def categoricalCols : List String := ["Area_Name", "Group_Name", "Sub_Group_Name"]

/-- Lines 63-65: best-effort numeric coercion of every non-categorical column. -/
def coerceStep (t : Table) : Table :=
  t.map (fun p => if p.1 ∈ categoricalCols then p else (p.1, coerceTry p.2))

/-- `pd.to_numeric(col, errors="coerce").fillna(0)` read as plain rationals. -/
def fill0 : ColData → List ℚ
  | .obj vs => vs.map (fun v => (v.bind parseRat?).getD 0)
  | .num vs => vs.map (fun v => v.getD 0)

def constCol (n : ℕ) (q : ℚ) : ColData := .num (List.replicate n (some q))

def getColD (t : Table) (c : String) : ColData := (getCol t c).getD (.obj [])

def isNumCol : ColData → Bool
  | .obj _ => false
  | .num _ => true

/-- Line 80: `df.select_dtypes(include=[np.number]).columns`, in column order. -/
def numericCols (t : Table) : List String :=
  (t.filter (fun p => isNumCol p.2)).map Prod.fst

/-- Lines 68-76: the property-crime branch.  Each of lines 70/72/73 reads
`df.get(col, 0)`: when the column is missing from the frame at that point,
`df.get` returns the scalar `0`, `pd.to_numeric` returns it unchanged, and
`.fillna(0)` on the `int` raises an `AttributeError` — so the branch
succeeds only when all three optional columns are present, and otherwise
stops at the first missing one.  The lets mirror the sequential column
assignments; line 75 and line 76 read back the columns just assigned, which
hold exactly the let-bound value lists. -/
def propertyBranch (t : Table) : Except LoadError Table :=
  let tcv := fill0 (getColD t "Cases_Property_Stolen")
  let t1 := setCol t "Total_Crimes" (.num (tcv.map some))
  if "Cases_Property_Recovered" ∈ tblNames t1 then
    let trv := fill0 (getColD t1 "Cases_Property_Recovered")
    let t2 := setCol t1 "Total_Recovered" (.num (trv.map some))
    if "Value_of_Property_Stolen" ∈ tblNames t2 then
      let tvsv := fill0 (getColD t2 "Value_of_Property_Stolen")
      let t3 := setCol t2 "Total_Value_Stolen" (.num (tvsv.map some))
      if "Value_of_Property_Recovered" ∈ tblNames t3 then
        let tvrv := fill0 (getColD t3 "Value_of_Property_Recovered")
        let t4 := setCol t3 "Total_Value_Recovered" (.num (tvrv.map some))
        let lossv := List.zipWith (fun a b => a - b) tvsv tvrv
        let t5 := setCol t4 "Loss_Value" (.num (lossv.map some))
        let rrv := List.zipWith recoveryRate tcv trv
        .ok (setCol t5 "Recovery_Rate" (.num (rrv.map some)))
      else .error (.scalarFillna "Value_of_Property_Recovered")
    else .error (.scalarFillna "Value_of_Property_Stolen")
  else .error (.scalarFillna "Cases_Property_Recovered")

/-- The success value of `propertyBranch`: the column assignments of lines
69-76 once all three optional columns are known to be present (so each
`df.get(col, 0)` returns the column itself).  `propertyBranch_eq_ok` below
proves that, under the three membership conditions, `propertyBranch`
returns exactly this table. -/
def propertyCols (t : Table) : Table :=
  let tcv := fill0 (getColD t "Cases_Property_Stolen")
  let t1 := setCol t "Total_Crimes" (.num (tcv.map some))
  let trv := fill0 (getColD t1 "Cases_Property_Recovered")
  let t2 := setCol t1 "Total_Recovered" (.num (trv.map some))
  let tvsv := fill0 (getColD t2 "Value_of_Property_Stolen")
  let t3 := setCol t2 "Total_Value_Stolen" (.num (tvsv.map some))
  let tvrv := fill0 (getColD t3 "Value_of_Property_Recovered")
  let t4 := setCol t3 "Total_Value_Recovered" (.num (tvrv.map some))
  let lossv := List.zipWith (fun a b => a - b) tvsv tvrv
  let t5 := setCol t4 "Loss_Value" (.num (lossv.map some))
  let rrv := List.zipWith recoveryRate tcv trv
  setCol t5 "Recovery_Rate" (.num (rrv.map some))

/-- Lines 79-92: the generic branch.  `preferred[0] if preferred else
numeric_cols[0]` selects the base column. -/
def genericBranch (filePath : String) (t : Table) : Except LoadError Table :=
  match numericCols t with
  | [] => .error (.noNumericColumns filePath)
  | c0 :: rest =>
    let base :=
      match ((c0 :: rest).filter keywordMatch) with
      | [] => c0
      | p0 :: _ => p0
    let basev := fill0 (getColD t base)
    let tA := setCol t "Total_Crimes" (.num (basev.map some))
    let tB := setCol tA "Total_Recovered" (constCol (nRows tA) 0)
    let tC := setCol tB "Loss_Value" (constCol (nRows tB) 0)
    .ok (setCol tC "Recovery_Rate" (constCol (nRows tC) 0))

/-- Lines 95-98: default `Group_Name` / `Sub_Group_Name` to `"Overall"`. -/
def defaultsStep (t : Table) : Table :=
  let t1 :=
    if "Group_Name" ∈ tblNames t then t
    else setCol t "Group_Name" (.obj (List.replicate (nRows t) (some "Overall")))
  if "Sub_Group_Name" ∈ tblNames t1 then t1
  else setCol t1 "Sub_Group_Name" (.obj (List.replicate (nRows t1) (some "Overall")))

def canonCol : ColData → ColData
  | .obj vs => .obj (vs.map (Option.map canonName))
  | .num vs => .num vs

/-- Line 110: `df["Area_Name"] = df["Area_Name"].replace(STATE_MAP)`.
Accessing the missing column raises the pandas `KeyError`. -/
def canonicalize (t : Table) : Except LoadError Table :=
  match getCol t "Area_Name" with
  | none => .error (.missingColumn "Area_Name")
  | some d => .ok (setCol t "Area_Name" (canonCol d))

/-- The normalization pipeline of `load_data` (lines 42-112 of `app.py`),
applied to the frame `pd.read_csv` produced. -/
def load_data (filePath : String) (t : Table) : Except LoadError Table :=
  match yearStep (stripStep t) with
  | .error e => .error e
  | .ok t2 =>
    let t4 := coerceStep (resolveArea t2)
    if "Cases_Property_Stolen" ∈ tblNames t4 then
      match propertyBranch t4 with
      | .error e => .error e
      | .ok t5 => canonicalize (defaultsStep t5)
    else
      match genericBranch filePath t4 with
      | .error e => .error e
      | .ok t5 => canonicalize (defaultsStep t5)

/-! ## Region catalog and aggregation (lines 35-38, 130-170, 214-228) -/

/-- Lexicographic (code-point) comparison of character lists, as Python
compares strings. -/
def strLeChars : List Char → List Char → Bool
  | [], _ => true
  | _ :: _, [] => false
  | a :: as, b :: bs =>
    if a.toNat < b.toNat then true
    else if b.toNat < a.toNat then false
    else strLeChars as bs

/-- Python string comparison. -/
def strLe (a b : String) : Bool := strLeChars a.data b.data

/-- `sorted` on a list of strings (stable; lexicographic). -/
def sortAsc (l : List String) : List String :=
  l.insertionSort (fun a b => strLe a b = true)

/-- `get_all_states_df` (lines 35-38): the deduplicated, sorted list of the
`NAME_1` properties of the geojson features. -/
def get_all_states_df (stateNames : List String) : List String :=
  sortAsc stateNames.dedup

/-- One normalized row, as the aggregation stage reads it. -/
structure NRow where
  Area_Name : String
  Group_Name : String
  Sub_Group_Name : String
  Year : Option ℤ
  Total_Crimes : ℚ
  Total_Recovered : ℚ
  Loss_Value : ℚ
  Recovery_Rate : ℚ
deriving DecidableEq, Repr

/-- Lines 130-142: the year-range filter (rows with NA year never satisfy a
pandas comparison) followed by the crime-group filter. -/
def filterRows (yr : Option (ℤ × ℤ)) (grp : Option String) (rows : List NRow) :
    List NRow :=
  let r1 :=
    match yr with
    | none => rows
    | some lohi =>
      rows.filter (fun r =>
        match r.Year with
        | some y => decide (lohi.1 ≤ y) && decide (y ≤ lohi.2)
        | none => false)
  match grp with
  | none => r1
  | some g => r1.filter (fun r => decide (r.Group_Name = g))

/-- `groupby` keys: pandas sorts the group keys ascending (`sort=True`). -/
def areaKeys (rows : List NRow) : List String :=
  sortAsc (rows.map NRow.Area_Name).dedup

def groupTC (rows : List NRow) (a : String) : ℚ :=
  ((rows.filter (fun r => decide (r.Area_Name = a))).map NRow.Total_Crimes).sum

def groupTR (rows : List NRow) (a : String) : ℚ :=
  ((rows.filter (fun r => decide (r.Area_Name = a))).map NRow.Total_Recovered).sum

def groupLV (rows : List NRow) (a : String) : ℚ :=
  ((rows.filter (fun r => decide (r.Area_Name = a))).map NRow.Loss_Value).sum

/-- One row of the per-state aggregate of lines 145-158. -/
structure SRow where
  Area_Name : String
  Total_Crimes : ℚ
  Total_Recovered : ℚ
  Loss_Value : ℚ
  Recovery_Rate : ℚ
deriving DecidableEq, Repr

def aggRow (rows : List NRow) (a : String) : SRow :=
  { Area_Name := a
    Total_Crimes := groupTC rows a
    Total_Recovered := groupTR rows a
    Loss_Value := groupLV rows a
    Recovery_Rate := recoveryRate (groupTC rows a) (groupTR rows a) }

/-- Lines 145-158: group by `Area_Name`, sum the three totals, recompute
`Recovery_Rate` from the summed numerator and denominator. -/
def state_agg (rows : List NRow) : List SRow :=
  (areaKeys rows).map (aggRow rows)

/-- Line 161: `all_states_df.merge(state_agg, on="Area_Name", how="left")`.
An unmatched catalog region carries NaN metrics (`none`). -/
def mergeStates (catalog : List String) (agg : List SRow) :
    List (String × Option SRow) :=
  catalog.map (fun a => (a, agg.find? (fun s => decide (s.Area_Name = a))))

/-- Lines 163-165: `fillna(0)` on the four metric columns. -/
def fillZero (p : String × Option SRow) : SRow :=
  match p.2 with
  | some s => s
  | none =>
    { Area_Name := p.1, Total_Crimes := 0, Total_Recovered := 0
      Loss_Value := 0, Recovery_Rate := 0 }

/-- The state summary handed to the map and the KPIs (lines 145-165). -/
def stateSummary (catalog : List String) (rows : List NRow) : List SRow :=
  (mergeStates catalog (state_agg rows)).map fillZero

/-- Line 168: `int(state_agg["Total_Crimes"].sum())`. -/
def total_crimes (summary : List SRow) : ℤ :=
  pyInt ((summary.map SRow.Total_Crimes).sum)

/-- Line 169: `int(state_agg["Total_Recovered"].sum())`. -/
def total_recovered (summary : List SRow) : ℤ :=
  pyInt ((summary.map SRow.Total_Recovered).sum)

/-- Line 170: overall recovery rate KPI. -/
def recovery_rate (summary : List SRow) : ℚ :=
  if total_crimes summary = 0 then 0
  else (total_recovered summary : ℚ) / (total_crimes summary : ℚ) * 100

/-- Lines 214-217: the drill-down scope (`none` is the "All India" sentinel). -/
def drillRows (sel : Option String) (rows : List NRow) : List NRow :=
  match sel with
  | none => rows
  | some s => rows.filter (fun r => decide (r.Area_Name = s))

/-- The descending comparison `sort_values("Total_Crimes", ascending=False)`
uses on the summed groups. -/
def valGE (a b : String × ℚ) : Prop := b.2 ≤ a.2

instance : DecidableRel valGE := fun a b => inferInstanceAs (Decidable (b.2 ≤ a.2))

instance : IsTotal (String × ℚ) valGE := ⟨fun a b => le_total b.2 a.2⟩

instance : IsTrans (String × ℚ) valGE :=
  ⟨fun _ _ _ h1 h2 => le_trans h2 h1⟩

def subKeys (rows : List NRow) : List String :=
  sortAsc (rows.map NRow.Sub_Group_Name).dedup

def groupSubTC (rows : List NRow) (k : String) : ℚ :=
  ((rows.filter (fun r => decide (r.Sub_Group_Name = k))).map NRow.Total_Crimes).sum

/-- The `groupby("Sub_Group_Name").agg(...)` output: keys sorted ascending
(pandas `sort=True`), each with its summed `Total_Crimes`. -/
def subGroups (rows : List NRow) : List (String × ℚ) :=
  (subKeys rows).map (fun k => (k, groupSubTC rows k))

/-- Lines 223-228: group by `Sub_Group_Name`, sum, sort descending by the
sum, truncate to 15.  `sort_values` defaults to numpy's unstable quicksort,
which fixes no order among groups with equal sums; `insertionSort` here is
one admissible implementation of that unspecified sort, and no theorem
below relies on its stability or on the tie order it happens to produce. -/
def sub_grp (rows : List NRow) : List (String × ℚ) :=
  (List.insertionSort valGE (subGroups rows)).take 15

/-! ## Concrete instances used by the claim witnesses and counterexamples -/

/-- A normalized row: Delhi, 10 crimes, 5 recovered. -/
def rowDelhi10 : NRow :=
  { Area_Name := "Delhi", Group_Name := "Overall", Sub_Group_Name := "Overall"
    Year := none, Total_Crimes := 10, Total_Recovered := 5
    Loss_Value := 0, Recovery_Rate := 0 }

/-- A normalized row for a region that is not in any catalog. -/
def rowAtlantis5 : NRow :=
  { Area_Name := "Atlantis", Group_Name := "Overall", Sub_Group_Name := "Overall"
    Year := none, Total_Crimes := 5, Total_Recovered := 0
    Loss_Value := 0, Recovery_Rate := 0 }

/-- A second Delhi row with zero counts (the spec's rate-recomputation
example). -/
def rowDelhi0 : NRow :=
  { Area_Name := "Delhi", Group_Name := "Overall", Sub_Group_Name := "Overall"
    Year := none, Total_Crimes := 0, Total_Recovered := 0
    Loss_Value := 0, Recovery_Rate := 0 }

/-- A normalized row carrying a negative `Loss_Value` (produced by
`load_data` on a property-crime row whose recovered value exceeds its stolen
value, e.g. `Value_of_Property_Stolen = 0`, `Value_of_Property_Recovered =
5`). -/
def rowDelhiNegLoss : NRow :=
  { Area_Name := "Delhi", Group_Name := "Overall", Sub_Group_Name := "Overall"
    Year := none, Total_Crimes := 3, Total_Recovered := 1
    Loss_Value := -5, Recovery_Rate := 0 }

/-- Two rows whose subgroups appear in the order B, A with equal sums. -/
def rowSubB : NRow :=
  { Area_Name := "Delhi", Group_Name := "Overall", Sub_Group_Name := "B"
    Year := none, Total_Crimes := 5, Total_Recovered := 0
    Loss_Value := 0, Recovery_Rate := 0 }

def rowSubA : NRow :=
  { Area_Name := "Delhi", Group_Name := "Overall", Sub_Group_Name := "A"
    Year := none, Total_Crimes := 5, Total_Recovered := 0
    Loss_Value := 0, Recovery_Rate := 0 }

/-- A full property-kind raw table, input of the idempotence witness. -/
def tblC8In : Table :=
  [("Area_Name", ColData.obj [some "Delhi"]),
   ("Cases_Property_Stolen", ColData.obj [some "0"]),
   ("Cases_Property_Recovered", ColData.obj [some "0"]),
   ("Value_of_Property_Stolen", ColData.obj [some "0"]),
   ("Value_of_Property_Recovered", ColData.obj [some "0"])]

/-- The normalized output `load_data` produces from `tblC8In`. -/
def tblC8Out : Table :=
  [("Area_Name", ColData.obj [some "Delhi"]),
   ("Cases_Property_Stolen", ColData.num [some 0]),
   ("Cases_Property_Recovered", ColData.num [some 0]),
   ("Value_of_Property_Stolen", ColData.num [some 0]),
   ("Value_of_Property_Recovered", ColData.num [some 0]),
   ("Total_Crimes", ColData.num [some 0]),
   ("Total_Recovered", ColData.num [some 0]),
   ("Total_Value_Stolen", ColData.num [some 0]),
   ("Total_Value_Recovered", ColData.num [some 0]),
   ("Loss_Value", ColData.num [some ((0 : ℚ) - 0)]),
   ("Recovery_Rate", ColData.num [some 0]),
   ("Group_Name", ColData.obj [some "Overall"]),
   ("Sub_Group_Name", ColData.obj [some "Overall"])]

/-- A generic-kind raw table whose only numeric column is named
`Total_Recovered` — the input of the idempotence counterexample. -/
def tblGenC8 : Table :=
  [("Area_Name", ColData.obj [some "Delhi"]),
   ("Total_Recovered", ColData.obj [some "7"])]

/-- `load_data` on `tblGenC8`: the base column is `Total_Recovered` (keyword
`"total"`), so `Total_Crimes = [7]`, and `Total_Recovered` is then
overwritten with 0. -/
def tblGenC8Out : Table :=
  [("Area_Name", ColData.obj [some "Delhi"]),
   ("Total_Recovered", ColData.num [some 0]),
   ("Total_Crimes", ColData.num [some 7]),
   ("Loss_Value", ColData.num [some 0]),
   ("Recovery_Rate", ColData.num [some 0]),
   ("Group_Name", ColData.obj [some "Overall"]),
   ("Sub_Group_Name", ColData.obj [some "Overall"])]

/-- `load_data` on `tblGenC8Out`: the first keyword-matching numeric column
is now the zeroed `Total_Recovered`, so `Total_Crimes` is rebased to 0. -/
def tblGenC8Out2 : Table :=
  [("Area_Name", ColData.obj [some "Delhi"]),
   ("Total_Recovered", ColData.num [some 0]),
   ("Total_Crimes", ColData.num [some 0]),
   ("Loss_Value", ColData.num [some 0]),
   ("Recovery_Rate", ColData.num [some 0]),
   ("Group_Name", ColData.obj [some "Overall"]),
   ("Sub_Group_Name", ColData.obj [some "Overall"])]

/-- Well-formedness of a raw frame as pandas guarantees it: distinct column
names (`read_csv` mangles duplicates) and all columns of equal length. -/
def WF (t : Table) : Prop :=
  (tblNames t).Nodup ∧ ∀ p ∈ t, colLen p.2 = nRows t

/-- Every cell of an object column is a strip-fixed string (no NaN left). -/
def objCellsFixed : ColData → Prop
  | .obj vs => ∀ v ∈ vs, ∃ s, v = some s ∧ pyStrip s = s
  | .num _ => True

/-- All object columns of the frame are strip-fixed. -/
def ObjFixed (t : Table) : Prop := ∀ p ∈ t, objCellsFixed p.2

/-- Every non-categorical column is a fixed point of the best-effort
numeric coercion. -/
def CoerceFixed (t : Table) : Prop :=
  ∀ p ∈ t, p.1 ∉ categoricalCols → coerceTry p.2 = p.2

/-- The `Year` column, when present, is a numeric column of integers
(NaN allowed) — the state line 52 leaves it in. -/
def YearInt (t : Table) : Prop :=
  ∀ d, getCol t "Year" = some d → integralCol d = true

end IndiaCrime


namespace IndiaCrime

/-! ## Basic table lemmas -/

theorem mem_tblNames_cons {p : String × ColData} {ps : Table} {x : String} :
    x ∈ tblNames (p :: ps) ↔ x = p.1 ∨ x ∈ tblNames ps := by
  simp [tblNames]

theorem getCol_eq_none_iff {t : Table} {c : String} :
    getCol t c = none ↔ c ∉ tblNames t := by
  induction t with
  | nil => simp [getCol, tblNames]
  | cons p ps ih =>
    by_cases hp : p.1 = c
    · simp [getCol, hp, tblNames]
    · simp [getCol, hp, tblNames, ih, Ne.symm hp]

theorem mem_of_getCol_some {t : Table} {c : String} {d : ColData}
    (h : getCol t c = some d) : c ∈ tblNames t := by
  by_contra hc
  rw [getCol_eq_none_iff.mpr hc] at h
  exact Option.noConfusion h

theorem getCol_some_of_mem {t : Table} {c : String} (h : c ∈ tblNames t) :
    ∃ d, getCol t c = some d := by
  rcases ho : getCol t c with _ | d
  · exact absurd (getCol_eq_none_iff.mp ho) (by simpa using h)
  · exact ⟨d, rfl⟩

theorem tblNames_setColIn (t : Table) (c : String) (d : ColData) :
    tblNames (setColIn t c d) = tblNames t := by
  induction t with
  | nil => rfl
  | cons p ps ih =>
    by_cases hp : p.1 = c
    · simp [setColIn, hp, tblNames] at *
      exact ih
    · simp [setColIn, hp, tblNames] at *
      exact ih

theorem tblNames_setCol_of_mem {t : Table} {c : String} (d : ColData)
    (h : c ∈ tblNames t) : tblNames (setCol t c d) = tblNames t := by
  rw [setCol, if_pos h, tblNames_setColIn]

theorem tblNames_setCol_of_not_mem {t : Table} {c : String} (d : ColData)
    (h : c ∉ tblNames t) : tblNames (setCol t c d) = tblNames t ++ [c] := by
  rw [setCol, if_neg h]
  simp [tblNames]

theorem mem_tblNames_setCol {t : Table} {c x : String} {d : ColData} :
    x ∈ tblNames (setCol t c d) ↔ x ∈ tblNames t ∨ x = c := by
  by_cases h : c ∈ tblNames t
  · rw [tblNames_setCol_of_mem d h]
    constructor
    · exact Or.inl
    · rintro (hx | rfl)
      · exact hx
      · exact h
  · rw [tblNames_setCol_of_not_mem d h]
    simp

theorem getCol_setColIn_self {t : Table} {c : String} (d : ColData)
    (h : c ∈ tblNames t) : getCol (setColIn t c d) c = some d := by
  induction t with
  | nil => simp [tblNames] at h
  | cons p ps ih =>
    by_cases hp : p.1 = c
    · simp [setColIn, hp, getCol]
    · have : c ∈ tblNames ps := by
        rcases (by simpa [tblNames] using h) with h1 | h1
        · exact absurd h1.symm hp
        · simpa [tblNames] using h1
      simp [setColIn, hp, getCol, ih this]

theorem getCol_setColIn_ne (t : Table) {c c' : String} (d : ColData)
    (h : c' ≠ c) : getCol (setColIn t c d) c' = getCol t c' := by
  induction t with
  | nil => rfl
  | cons p ps ih =>
    by_cases hp : p.1 = c
    · subst hp
      have h1 : ¬ (p.1 = c') := fun he => h he.symm
      simp [setColIn, getCol, h1, ih]
    · by_cases hp' : p.1 = c'
      · simp [setColIn, getCol, hp, hp', h]
      · simp [setColIn, getCol, hp, hp', ih]

theorem getCol_setCol_self (t : Table) (c : String) (d : ColData) :
    getCol (setCol t c d) c = some d := by
  rw [setCol]
  by_cases h : c ∈ tblNames t
  · rw [if_pos h]
    exact getCol_setColIn_self d h
  · rw [if_neg h]
    induction t with
    | nil => simp [getCol]
    | cons p ps ih =>
      have hp : p.1 ≠ c :=
        fun he => h (mem_tblNames_cons.mpr (Or.inl he.symm))
      have hps : c ∉ tblNames ps :=
        fun hm => h (mem_tblNames_cons.mpr (Or.inr hm))
      simpa [getCol, hp] using ih hps

theorem getCol_setCol_ne (t : Table) {c c' : String} (d : ColData)
    (h : c' ≠ c) : getCol (setCol t c d) c' = getCol t c' := by
  rw [setCol]
  by_cases hm : c ∈ tblNames t
  · rw [if_pos hm]
    exact getCol_setColIn_ne t d h
  · rw [if_neg hm]
    induction t with
    | nil => simp [getCol, Ne.symm h]
    | cons p ps ih =>
      by_cases hp : p.1 = c'
      · simp [getCol, hp]
      · simp only [List.cons_append, getCol, if_neg hp]
        exact ih (fun hmm => hm (mem_tblNames_cons.mpr (Or.inr hmm)))

theorem setColIn_not_mem {t : Table} {c : String} (d : ColData)
    (h : c ∉ tblNames t) : setColIn t c d = t := by
  induction t with
  | nil => rfl
  | cons q qs ih =>
    have hq : q.1 ≠ c := fun he => h (mem_tblNames_cons.mpr (Or.inl he.symm))
    have hqs : c ∉ tblNames qs := fun hm => h (mem_tblNames_cons.mpr (Or.inr hm))
    simp [setColIn, hq, ih hqs]

theorem setColIn_same {t : Table} {c : String} {d : ColData}
    (hn : (tblNames t).Nodup) (h : getCol t c = some d) :
    setColIn t c d = t := by
  induction t with
  | nil => rfl
  | cons p ps ih =>
    rw [tblNames] at hn
    simp only [List.map_cons, List.nodup_cons] at hn
    by_cases hp : p.1 = c
    · have hd : p.2 = d := by
        rw [getCol, if_pos hp] at h
        exact Option.some.inj h
      have hcps : c ∉ tblNames ps := by
        rw [← hp]
        intro hm
        exact hn.1 (by simpa [tblNames] using hm)
      have hpd : (c, d) = p := by
        rw [← hp, ← hd]
      simp [setColIn, hp, setColIn_not_mem d hcps, hpd]
    · rw [getCol, if_neg hp] at h
      simp [setColIn, hp, ih hn.2 h]

theorem setCol_same {t : Table} {c : String} {d : ColData}
    (hn : (tblNames t).Nodup) (h : getCol t c = some d) :
    setCol t c d = t := by
  rw [setCol, if_pos (mem_of_getCol_some h), setColIn_same hn h]

theorem nodup_tblNames_setCol {t : Table} {c : String} {d : ColData}
    (hn : (tblNames t).Nodup) : (tblNames (setCol t c d)).Nodup := by
  by_cases h : c ∈ tblNames t
  · rw [tblNames_setCol_of_mem d h]
    exact hn
  · rw [tblNames_setCol_of_not_mem d h]
    simpa [List.nodup_append] using ⟨hn, h⟩

theorem tblNames_stripStep (t : Table) : tblNames (stripStep t) = tblNames t := by
  simp [stripStep, tblNames]

theorem getCol_stripStep (t : Table) (c : String) :
    getCol (stripStep t) c = (getCol t c).map stripCol := by
  induction t with
  | nil => rfl
  | cons p ps ih =>
    by_cases hp : p.1 = c
    · simp [stripStep, getCol, hp]
    · simpa [stripStep, getCol, hp] using ih

theorem tblNames_coerceStep (t : Table) : tblNames (coerceStep t) = tblNames t := by
  induction t with
  | nil => rfl
  | cons p ps ih =>
    by_cases hp : p.1 ∈ categoricalCols
    · simpa [coerceStep, tblNames, hp] using ih
    · simpa [coerceStep, tblNames, hp] using ih

theorem getCol_coerceStep (t : Table) (c : String) :
    getCol (coerceStep t) c =
      (getCol t c).map (fun d => if c ∈ categoricalCols then d else coerceTry d) := by
  induction t with
  | nil => rfl
  | cons p ps ih =>
    by_cases hp : p.1 = c
    · by_cases hcat : p.1 ∈ categoricalCols
      · simp [coerceStep, getCol, hp, hp ▸ hcat]
      · simp [coerceStep, getCol, hp, hp ▸ hcat]
    · by_cases hcat : p.1 ∈ categoricalCols
      · simpa [coerceStep, getCol, hp, hcat] using ih
      · simpa [coerceStep, getCol, hp, hcat] using ih

theorem yearStep_no_year {t : Table} (h : "Year" ∉ tblNames t) :
    yearStep t = .ok t := by
  rw [yearStep, getCol_eq_none_iff.mpr h]

theorem yearStep_error {t : Table} {e : LoadError} (h : yearStep t = .error e) :
    e = .nonIntegralYear := by
  rw [yearStep] at h
  split at h
  · exact Except.noConfusion h
  · split at h
    · exact Except.noConfusion h
    · exact (Except.error.inj h).symm

theorem yearStep_ok_cases {t u : Table} (h : yearStep t = .ok u) :
    (getCol t "Year" = none ∧ u = t) ∨
      ∃ d, getCol t "Year" = some d ∧ integralCol (coerceNum d) = true ∧
        u = setCol t "Year" (coerceNum d) := by
  rw [yearStep] at h
  split at h
  next hg => exact Or.inl ⟨hg, (Except.ok.inj h).symm⟩
  next d hg =>
    split at h
    next hi => exact Or.inr ⟨d, hg, hi, (Except.ok.inj h).symm⟩
    next hi => exact Except.noConfusion h

theorem tblNames_yearStep {t u : Table} (h : yearStep t = .ok u) :
    tblNames u = tblNames t := by
  rcases yearStep_ok_cases h with ⟨_, rfl⟩ | ⟨d, hg, _, rfl⟩
  · rfl
  · exact tblNames_setCol_of_mem _ (mem_of_getCol_some hg)

theorem getCol_yearStep_ne {t u : Table} (h : yearStep t = .ok u) {c : String}
    (hc : c ≠ "Year") : getCol u c = getCol t c := by
  rcases yearStep_ok_cases h with ⟨_, rfl⟩ | ⟨d, _, _, rfl⟩
  · rfl
  · exact getCol_setCol_ne t _ hc

theorem tblNames_renameCol (t : Table) (o n : String) :
    tblNames (renameCol t o n) = (tblNames t).map (fun x => if x = o then n else x) := by
  induction t with
  | nil => rfl
  | cons p ps ih =>
    by_cases hp : p.1 = o
    · simpa [renameCol, tblNames, hp] using ih
    · simpa [renameCol, tblNames, hp] using ih

theorem mem_tblNames_resolveArea {t : Table} {x : String}
    (hx : x ∉ areaAliases) (hA : x ≠ "Area_Name") :
    x ∈ tblNames (resolveArea t) ↔ x ∈ tblNames t := by
  rw [resolveArea]
  by_cases h : "Area_Name" ∈ tblNames t
  · simp [h]
  · rw [if_neg h]
    rcases hf : areaAliases.find? (fun a => decide (a ∈ tblNames t)) with _ | a
    · rfl
    · have ha : a ∈ areaAliases := List.mem_of_find?_eq_some hf
      rw [tblNames_renameCol]
      constructor
      · intro hm
        rcases List.mem_map.mp hm with ⟨y, hy, hxy⟩
        by_cases hya : y = a
        · rw [if_pos hya] at hxy
          exact absurd hxy.symm hA
        · rw [if_neg hya] at hxy
          exact hxy ▸ hy
      · intro hm
        refine List.mem_map.mpr ⟨x, hm, ?_⟩
        rw [if_neg (fun he => hx (by rw [he]; exact ha))]

theorem resolveArea_of_mem {t : Table} (h : "Area_Name" ∈ tblNames t) :
    resolveArea t = t := by
  rw [resolveArea, if_pos h]

theorem resolveArea_no_alias {t : Table} (h : "Area_Name" ∉ tblNames t)
    (ha : ∀ a ∈ areaAliases, a ∉ tblNames t) : resolveArea t = t := by
  rw [resolveArea, if_neg h]
  have : areaAliases.find? (fun a => decide (a ∈ tblNames t)) = none :=
    List.find?_eq_none.mpr (fun a hmem => by simpa using ha a hmem)
  rw [this]


theorem not_mem_tblNames_setCol {t : Table} {c x : String} {d : ColData}
    (hx : x ∉ tblNames t) (hne : x ≠ c) : x ∉ tblNames (setCol t c d) :=
  fun hm => (mem_tblNames_setCol.mp hm).elim hx hne

theorem mem_tblNames_setCol_of_mem {t : Table} {x : String} (c : String)
    (d : ColData) (h : x ∈ tblNames t) : x ∈ tblNames (setCol t c d) :=
  mem_tblNames_setCol.mpr (Or.inl h)

theorem tblNames_pre_mem {t t2 : Table} (hy : yearStep (stripStep t) = .ok t2)
    {x : String} (hx : x ∉ areaAliases) (hA : x ≠ "Area_Name") :
    x ∈ tblNames (coerceStep (resolveArea t2)) ↔ x ∈ tblNames t := by
  rw [tblNames_coerceStep, mem_tblNames_resolveArea hx hA, tblNames_yearStep hy,
    tblNames_stripStep]

theorem tblNames_pre_no_region {t t2 : Table} (hy : yearStep (stripStep t) = .ok t2)
    (hA : "Area_Name" ∉ tblNames t) (ha : ∀ a ∈ areaAliases, a ∉ tblNames t) :
    tblNames (coerceStep (resolveArea t2)) = tblNames t := by
  rw [tblNames_coerceStep, resolveArea_no_alias, tblNames_yearStep hy, tblNames_stripStep]
  · rw [tblNames_yearStep hy, tblNames_stripStep]
    exact hA
  · intro a hmem
    rw [tblNames_yearStep hy, tblNames_stripStep]
    exact ha a hmem

theorem area_not_mem_propertyCols {t : Table}
    (h : "Area_Name" ∉ tblNames t) :
    "Area_Name" ∉ tblNames (propertyCols t) := by
  rw [propertyCols]
  exact not_mem_tblNames_setCol (not_mem_tblNames_setCol (not_mem_tblNames_setCol
    (not_mem_tblNames_setCol (not_mem_tblNames_setCol (not_mem_tblNames_setCol h
      (by decide)) (by decide)) (by decide)) (by decide)) (by decide)) (by decide)

theorem area_not_mem_defaultsStep {t : Table}
    (h : "Area_Name" ∉ tblNames t) :
    "Area_Name" ∉ tblNames (defaultsStep t) := by
  rw [defaultsStep]
  split_ifs
  · exact h
  · exact not_mem_tblNames_setCol h (by decide)
  · exact not_mem_tblNames_setCol h (by decide)
  · exact not_mem_tblNames_setCol (not_mem_tblNames_setCol h (by decide)) (by decide)

theorem getCol_defaultsStep_ne {t : Table} {c : String}
    (h1 : c ≠ "Group_Name") (h2 : c ≠ "Sub_Group_Name") :
    getCol (defaultsStep t) c = getCol t c := by
  rw [defaultsStep]
  split_ifs
  · rfl
  · exact getCol_setCol_ne t _ h2
  · exact getCol_setCol_ne t _ h1
  · rw [getCol_setCol_ne _ _ h2, getCol_setCol_ne _ _ h1]

theorem canonicalize_not_mem {t : Table} (h : "Area_Name" ∉ tblNames t) :
    canonicalize t = .error (.missingColumn "Area_Name") := by
  rw [canonicalize, getCol_eq_none_iff.mpr h]

theorem propertyBranch_missing_CPR {t : Table}
    (h2 : "Cases_Property_Recovered" ∉ tblNames t) :
    propertyBranch t = .error (.scalarFillna "Cases_Property_Recovered") := by
  simp only [propertyBranch]
  rw [if_neg (fun hm => h2 ((mem_tblNames_setCol.mp hm).resolve_right (by decide)))]

theorem propertyBranch_missing_VPS {t : Table}
    (h2 : "Cases_Property_Recovered" ∈ tblNames t)
    (h3 : "Value_of_Property_Stolen" ∉ tblNames t) :
    propertyBranch t = .error (.scalarFillna "Value_of_Property_Stolen") := by
  simp only [propertyBranch]
  rw [if_pos (mem_tblNames_setCol_of_mem _ _ h2),
    if_neg (fun hm => h3 ((mem_tblNames_setCol.mp ((mem_tblNames_setCol.mp
      hm).resolve_right (by decide))).resolve_right (by decide)))]

theorem propertyBranch_missing_VPR {t : Table}
    (h2 : "Cases_Property_Recovered" ∈ tblNames t)
    (h3 : "Value_of_Property_Stolen" ∈ tblNames t)
    (h4 : "Value_of_Property_Recovered" ∉ tblNames t) :
    propertyBranch t = .error (.scalarFillna "Value_of_Property_Recovered") := by
  simp only [propertyBranch]
  rw [if_pos (mem_tblNames_setCol_of_mem _ _ h2),
    if_pos (mem_tblNames_setCol_of_mem _ _ (mem_tblNames_setCol_of_mem _ _ h3)),
    if_neg (fun hm => h4 ((mem_tblNames_setCol.mp ((mem_tblNames_setCol.mp
      ((mem_tblNames_setCol.mp hm).resolve_right (by decide))).resolve_right
        (by decide))).resolve_right (by decide)))]

theorem propertyBranch_eq_ok {t : Table}
    (h2 : "Cases_Property_Recovered" ∈ tblNames t)
    (h3 : "Value_of_Property_Stolen" ∈ tblNames t)
    (h4 : "Value_of_Property_Recovered" ∈ tblNames t) :
    propertyBranch t = .ok (propertyCols t) := by
  simp only [propertyBranch, propertyCols]
  rw [if_pos (mem_tblNames_setCol_of_mem _ _ h2),
    if_pos (mem_tblNames_setCol_of_mem _ _ (mem_tblNames_setCol_of_mem _ _ h3)),
    if_pos (mem_tblNames_setCol_of_mem _ _ (mem_tblNames_setCol_of_mem _ _
      (mem_tblNames_setCol_of_mem _ _ h4)))]

theorem propertyBranch_ok_mem {t u : Table} (h : propertyBranch t = .ok u) :
    "Cases_Property_Recovered" ∈ tblNames t ∧
      "Value_of_Property_Stolen" ∈ tblNames t ∧
      "Value_of_Property_Recovered" ∈ tblNames t := by
  by_cases h2 : "Cases_Property_Recovered" ∈ tblNames t
  · by_cases h3 : "Value_of_Property_Stolen" ∈ tblNames t
    · by_cases h4 : "Value_of_Property_Recovered" ∈ tblNames t
      · exact ⟨h2, h3, h4⟩
      · rw [propertyBranch_missing_VPR h2 h3 h4] at h
        exact Except.noConfusion h
    · rw [propertyBranch_missing_VPS h2 h3] at h
      exact Except.noConfusion h
  · rw [propertyBranch_missing_CPR h2] at h
    exact Except.noConfusion h

theorem propertyBranch_ok_val {t u : Table} (h : propertyBranch t = .ok u) :
    u = propertyCols t := by
  obtain ⟨h2, h3, h4⟩ := propertyBranch_ok_mem h
  rw [propertyBranch_eq_ok h2 h3 h4] at h
  exact (Except.ok.inj h).symm

theorem propertyBranch_error {t : Table} {e : LoadError}
    (h : propertyBranch t = .error e) :
    e = .scalarFillna "Cases_Property_Recovered" ∨
      e = .scalarFillna "Value_of_Property_Stolen" ∨
      e = .scalarFillna "Value_of_Property_Recovered" := by
  by_cases h2 : "Cases_Property_Recovered" ∈ tblNames t
  · by_cases h3 : "Value_of_Property_Stolen" ∈ tblNames t
    · by_cases h4 : "Value_of_Property_Recovered" ∈ tblNames t
      · rw [propertyBranch_eq_ok h2 h3 h4] at h
        exact Except.noConfusion h
      · rw [propertyBranch_missing_VPR h2 h3 h4] at h
        exact Or.inr (Or.inr (Except.error.inj h).symm)
    · rw [propertyBranch_missing_VPS h2 h3] at h
      exact Or.inr (Or.inl (Except.error.inj h).symm)
  · rw [propertyBranch_missing_CPR h2] at h
    exact Or.inl (Except.error.inj h).symm

theorem load_data_year_error {fp : String} {t : Table} {e : LoadError}
    (h : yearStep (stripStep t) = .error e) : load_data fp t = .error e := by
  simp only [load_data, h]

theorem load_data_ok_pipeline {fp : String} {t t2 : Table}
    (hy : yearStep (stripStep t) = .ok t2) :
    load_data fp t =
      if "Cases_Property_Stolen" ∈ tblNames (coerceStep (resolveArea t2)) then
        match propertyBranch (coerceStep (resolveArea t2)) with
        | .error e => .error e
        | .ok t5 => canonicalize (defaultsStep t5)
      else
        match genericBranch fp (coerceStep (resolveArea t2)) with
        | .error e => .error e
        | .ok t5 => canonicalize (defaultsStep t5) := by
  simp only [load_data, hy]

theorem load_data_property {fp : String} {t t2 u : Table}
    (hy : yearStep (stripStep t) = .ok t2)
    (hc : "Cases_Property_Stolen" ∈ tblNames (coerceStep (resolveArea t2)))
    (hb : propertyBranch (coerceStep (resolveArea t2)) = .ok u) :
    load_data fp t = canonicalize (defaultsStep u) := by
  rw [load_data_ok_pipeline hy, if_pos hc]
  simp only [hb]

theorem load_data_property_err {fp : String} {t t2 : Table} {e : LoadError}
    (hy : yearStep (stripStep t) = .ok t2)
    (hc : "Cases_Property_Stolen" ∈ tblNames (coerceStep (resolveArea t2)))
    (hb : propertyBranch (coerceStep (resolveArea t2)) = .error e) :
    load_data fp t = .error e := by
  rw [load_data_ok_pipeline hy, if_pos hc]
  simp only [hb]

theorem load_data_generic {fp : String} {t t2 u : Table}
    (hy : yearStep (stripStep t) = .ok t2)
    (hc : "Cases_Property_Stolen" ∉ tblNames (coerceStep (resolveArea t2)))
    (hb : genericBranch fp (coerceStep (resolveArea t2)) = .ok u) :
    load_data fp t = canonicalize (defaultsStep u) := by
  rw [load_data_ok_pipeline hy, if_neg hc]
  simp only [hb]

/-! ## Claims C1, C6, C7 -/

/-- **C1** (claim corrected).  The claim asserts that a table with no
`Area_Name` column and none of the region aliases makes normalization raise
a dedicated `SchemaError` at the region-resolution step, before any further
processing.  The code has no raise at that step (lines 55-60 just fall
through): normalization indeed never succeeds on such a table, but the run
fails at one of the other error sites instead — the `TypeError` of the
line-52 `astype("Int64")` cast on a non-integral `Year` column (which fires
even before region resolution), the `AttributeError` of lines 70/72/73 on a
property-kind table missing one of its optional columns, the
no-numeric-columns `ValueError` of the generic branch (line 82), or the
`KeyError` on accessing the missing `Area_Name` column at the
canonicalization step (line 110). -/
theorem C1_no_region_fails_later (fp : String) (t : Table)
    (hA : "Area_Name" ∉ tblNames t)
    (ha : ∀ a ∈ areaAliases, a ∉ tblNames t) :
    ∃ e, load_data fp t = .error e ∧
      (e = LoadError.nonIntegralYear ∨
        e = LoadError.scalarFillna "Cases_Property_Recovered" ∨
        e = LoadError.scalarFillna "Value_of_Property_Stolen" ∨
        e = LoadError.scalarFillna "Value_of_Property_Recovered" ∨
        e = LoadError.missingColumn "Area_Name" ∨
        e = LoadError.noNumericColumns fp) := by
  rcases hys : yearStep (stripStep t) with e | t2
  · exact ⟨e, load_data_year_error hys, Or.inl (yearStep_error hys)⟩
  · have hnames : tblNames (coerceStep (resolveArea t2)) = tblNames t :=
      tblNames_pre_no_region hys hA ha
    have hA4 : "Area_Name" ∉ tblNames (coerceStep (resolveArea t2)) := by
      rw [hnames]
      exact hA
    by_cases hc : "Cases_Property_Stolen" ∈ tblNames (coerceStep (resolveArea t2))
    · rcases hpb : propertyBranch (coerceStep (resolveArea t2)) with e | t5
      · refine ⟨e, load_data_property_err hys hc hpb, ?_⟩
        rcases propertyBranch_error hpb with h | h | h
        · exact Or.inr (Or.inl h)
        · exact Or.inr (Or.inr (Or.inl h))
        · exact Or.inr (Or.inr (Or.inr (Or.inl h)))
      · refine ⟨_, ?_, Or.inr (Or.inr (Or.inr (Or.inr (Or.inl rfl))))⟩
        rw [load_data_property hys hc hpb]
        exact canonicalize_not_mem (area_not_mem_defaultsStep (by
          rw [propertyBranch_ok_val hpb]
          exact area_not_mem_propertyCols hA4))
    · rw [load_data_ok_pipeline hys, if_neg hc]
      rcases hnc : numericCols (coerceStep (resolveArea t2)) with _ | ⟨c0, rest⟩
      · refine ⟨_, ?_, Or.inr (Or.inr (Or.inr (Or.inr (Or.inr rfl))))⟩
        simp only [genericBranch, hnc]
      · refine ⟨_, ?_, Or.inr (Or.inr (Or.inr (Or.inr (Or.inl rfl))))⟩
        simp only [genericBranch, hnc]
        exact canonicalize_not_mem (area_not_mem_defaultsStep
          (not_mem_tblNames_setCol (not_mem_tblNames_setCol (not_mem_tblNames_setCol
            (not_mem_tblNames_setCol hA4 (by decide)) (by decide)) (by decide)) (by decide)))

/-- **C1** counterexample, on the spec's own `["Foo","Bar"]` example table.
With a numeric `Foo` column, `load_data` runs the whole generic numeric
branch and only then fails, with the `KeyError` of line 110 on the missing
`Area_Name` column; with no numeric column it fails with the `ValueError` of
line 82.  Neither run raises a dedicated schema error at the
region-resolution step as the claim demands. -/
theorem C1_counterexample :
    load_data "data.csv" [("Foo", ColData.obj [some "1"]), ("Bar", ColData.obj [some "x"])] =
      .error (.missingColumn "Area_Name") ∧
    load_data "data.csv" [("Foo", ColData.obj [some "x"]), ("Bar", ColData.obj [some "y"])] =
      .error (.noNumericColumns "data.csv") := by
  exact ⟨rfl, rfl⟩

/-- Witness for `C1_no_region_fails_later` at a concrete table. -/
theorem C1_witness :
    ∃ e, load_data "w.csv" [("Foo", ColData.obj [some "2"])] = .error e ∧
      (e = LoadError.nonIntegralYear ∨
        e = LoadError.scalarFillna "Cases_Property_Recovered" ∨
        e = LoadError.scalarFillna "Value_of_Property_Stolen" ∨
        e = LoadError.scalarFillna "Value_of_Property_Recovered" ∨
        e = LoadError.missingColumn "Area_Name" ∨
        e = LoadError.noNumericColumns "w.csv") :=
  C1_no_region_fails_later "w.csv" [("Foo", ColData.obj [some "2"])]
    (by decide) (by decide)

/-- **C6** (confirmed).  A generic-kind table (no `Cases_Property_Stolen`
column) with zero numeric columns after coercion makes `load_data` fail with
the dedicated error of line 82, which carries the offending file path; the
failure is terminal — an `Except.error` result, no partial normalized table
is produced.  The no-`Year` hypothesis only makes explicit what the
zero-numeric-columns hypothesis already forces: a `Year` column would itself
be numeric after the line-52 cast. -/
theorem C6_no_numeric_error (fp : String) (t : Table)
    (hp : "Cases_Property_Stolen" ∉ tblNames t)
    (hY : "Year" ∉ tblNames t)
    (hn : numericCols (coerceStep (resolveArea (stripStep t))) = []) :
    load_data fp t = .error (.noNumericColumns fp) := by
  have hys : yearStep (stripStep t) = .ok (stripStep t) :=
    yearStep_no_year (by rw [tblNames_stripStep]; exact hY)
  have hc : "Cases_Property_Stolen" ∉ tblNames (coerceStep (resolveArea (stripStep t))) :=
    fun hm => hp ((tblNames_pre_mem hys (by decide) (by decide)).mp hm)
  rw [load_data_ok_pipeline hys, if_neg hc]
  simp only [genericBranch, hn]

/-- Witness for `C6_no_numeric_error` at a concrete table. -/
theorem C6_witness :
    load_data "w6.csv" [("Foo", ColData.obj [some "x"]), ("Bar", ColData.obj [some "y"])] =
      .error (.noNumericColumns "w6.csv") :=
  C6_no_numeric_error "w6.csv" _ (by decide) (by decide) (by decide)

theorem sortAsc_perm (l : List String) : (sortAsc l).Perm l :=
  List.perm_insertionSort _ l

theorem mem_sortAsc {l : List String} {x : String} : x ∈ sortAsc l ↔ x ∈ l :=
  (sortAsc_perm l).mem_iff

theorem sortAsc_nodup {l : List String} (h : l.Nodup) : (sortAsc l).Nodup :=
  ((sortAsc_perm l).nodup_iff).mpr h

theorem catalog_nodup (features : List String) :
    (get_all_states_df features).Nodup :=
  sortAsc_nodup (List.nodup_dedup features)

theorem mem_catalog {features : List String} {x : String} :
    x ∈ get_all_states_df features ↔ x ∈ features := by
  rw [get_all_states_df, mem_sortAsc, List.mem_dedup]

theorem areaKeys_nodup (rows : List NRow) : (areaKeys rows).Nodup :=
  sortAsc_nodup (List.nodup_dedup _)

theorem mem_areaKeys {rows : List NRow} {a : String} :
    a ∈ areaKeys rows ↔ a ∈ rows.map NRow.Area_Name := by
  rw [areaKeys, mem_sortAsc, List.mem_dedup]

theorem find?_eq_self_key (l : List String) (a : String) :
    l.find? (fun k => decide (k = a)) = if a ∈ l then some a else none := by
  induction l with
  | nil => simp
  | cons k ks ih =>
    by_cases hk : k = a
    · subst hk
      simp [List.find?_cons]
    · rw [List.find?_cons]
      have : (decide (k = a)) = false := by simpa using hk
      rw [this, ih]
      by_cases ha : a ∈ ks
      · rw [if_pos ha, if_pos (List.mem_cons_of_mem _ ha)]
      · rw [if_neg ha, if_neg (fun hm => by
          rcases List.mem_cons.mp hm with h1 | h1
          · exact hk h1.symm
          · exact ha h1)]

theorem find?_map_keyed {β : Type} (g : String → β) (keyOf : β → String)
    (hk : ∀ k, keyOf (g k) = k) (l : List String) (a : String) :
    (l.map g).find? (fun s => decide (keyOf s = a)) =
      (l.find? (fun k => decide (k = a))).map g := by
  induction l with
  | nil => simp
  | cons k ks ih =>
    rw [List.map_cons, List.find?_cons, List.find?_cons, hk k]
    by_cases hka : k = a
    · simp [hka]
    · have h1 : (decide (k = a)) = false := by simpa using hka
      rw [h1, ih]

theorem filter_area_nil {rows : List NRow} {a : String}
    (h : a ∉ rows.map NRow.Area_Name) :
    rows.filter (fun r => decide (r.Area_Name = a)) = [] := by
  rw [List.filter_eq_nil_iff]
  intro r hr
  simp only [decide_eq_true_eq]
  intro he
  exact h (List.mem_map.mpr ⟨r, hr, he⟩)

theorem groupTC_of_not_mem {rows : List NRow} {a : String}
    (h : a ∉ rows.map NRow.Area_Name) : groupTC rows a = 0 := by
  rw [groupTC, filter_area_nil h]
  rfl

theorem stateSummary_apply (catalog : List String) (rows : List NRow) :
    stateSummary catalog rows =
      catalog.map (fun a =>
        if a ∈ areaKeys rows then aggRow rows a
        else { Area_Name := a, Total_Crimes := 0, Total_Recovered := 0,
               Loss_Value := 0, Recovery_Rate := 0 }) := by
  rw [stateSummary, mergeStates, List.map_map]
  refine List.map_congr_left (fun a _ => ?_)
  show fillZero (a, (state_agg rows).find? (fun s => decide (s.Area_Name = a))) = _
  rw [state_agg, find?_map_keyed (aggRow rows) SRow.Area_Name (fun k => rfl),
    find?_eq_self_key]
  by_cases ha : a ∈ areaKeys rows
  · rw [if_pos ha, if_pos ha]
    rfl
  · rw [if_neg ha, if_neg ha]
    rfl

theorem sum_filter_mem_cons {α : Type} (key : α → String) (f : α → ℚ)
    (rows : List α) (k : String) (ks : List String) (hk : k ∉ ks) :
    ((rows.filter (fun r => decide (key r ∈ k :: ks))).map f).sum =
      ((rows.filter (fun r => decide (key r = k))).map f).sum +
      ((rows.filter (fun r => decide (key r ∈ ks))).map f).sum := by
  induction rows with
  | nil => simp
  | cons r rs ih =>
    rw [List.filter_cons, List.filter_cons, List.filter_cons]
    by_cases h1 : key r = k
    · have h2 : key r ∉ ks := fun hm => hk (h1 ▸ hm)
      rw [if_pos (show decide (key r ∈ k :: ks) = true by
            simp [List.mem_cons, h1]),
        if_pos (show decide (key r = k) = true by simp [h1]),
        if_neg (show ¬ decide (key r ∈ ks) = true by simpa using h2)]
      simp only [List.map_cons, List.sum_cons]
      rw [ih]
      ring
    · by_cases h2 : key r ∈ ks
      · rw [if_pos (show decide (key r ∈ k :: ks) = true by
              simp [List.mem_cons, h2]),
          if_neg (show ¬ decide (key r = k) = true by simpa using h1),
          if_pos (show decide (key r ∈ ks) = true by simpa using h2)]
        simp only [List.map_cons, List.sum_cons]
        rw [ih]
        ring
      · rw [if_neg (show ¬ decide (key r ∈ k :: ks) = true by
              simp [List.mem_cons, h1, h2]),
          if_neg (show ¬ decide (key r = k) = true by simpa using h1),
          if_neg (show ¬ decide (key r ∈ ks) = true by simpa using h2)]
        exact ih

theorem sum_partition {α : Type} (key : α → String) (f : α → ℚ) (rows : List α) :
    ∀ keys : List String, keys.Nodup →
    (keys.map (fun a => ((rows.filter (fun r => decide (key r = a))).map f).sum)).sum =
      ((rows.filter (fun r => decide (key r ∈ keys))).map f).sum := by
  intro keys
  induction keys with
  | nil => simp
  | cons k ks ih =>
    intro hnd
    rw [List.nodup_cons] at hnd
    rw [List.map_cons, List.sum_cons, ih hnd.2, sum_filter_mem_cons key f rows k ks hnd.1]

theorem summary_TC_sum {catalog : List String} (hnd : catalog.Nodup)
    (rows : List NRow) :
    ((stateSummary catalog rows).map SRow.Total_Crimes).sum =
      ((rows.filter (fun r => decide (r.Area_Name ∈ catalog))).map
        NRow.Total_Crimes).sum := by
  rw [stateSummary_apply, List.map_map]
  have hmap : (catalog.map (SRow.Total_Crimes ∘ fun a =>
      if a ∈ areaKeys rows then aggRow rows a
      else { Area_Name := a, Total_Crimes := 0, Total_Recovered := 0,
             Loss_Value := 0, Recovery_Rate := 0 })) =
      catalog.map (fun a => ((rows.filter
        (fun r => decide (r.Area_Name = a))).map NRow.Total_Crimes).sum) := by
    refine List.map_congr_left (fun a _ => ?_)
    by_cases ha : a ∈ areaKeys rows
    · simp only [Function.comp, if_pos ha]
      rfl
    · simp only [Function.comp, if_neg ha]
      show (0 : ℚ) = groupTC rows a
      rw [groupTC_of_not_mem (fun hm => ha (mem_areaKeys.mpr hm))]
  rw [hmap, sum_partition NRow.Area_Name NRow.Total_Crimes rows catalog hnd]

theorem summary_TR_sum {catalog : List String} (hnd : catalog.Nodup)
    (rows : List NRow) :
    ((stateSummary catalog rows).map SRow.Total_Recovered).sum =
      ((rows.filter (fun r => decide (r.Area_Name ∈ catalog))).map
        NRow.Total_Recovered).sum := by
  rw [stateSummary_apply, List.map_map]
  have hmap : (catalog.map (SRow.Total_Recovered ∘ fun a =>
      if a ∈ areaKeys rows then aggRow rows a
      else { Area_Name := a, Total_Crimes := 0, Total_Recovered := 0,
             Loss_Value := 0, Recovery_Rate := 0 })) =
      catalog.map (fun a => ((rows.filter
        (fun r => decide (r.Area_Name = a))).map NRow.Total_Recovered).sum) := by
    refine List.map_congr_left (fun a _ => ?_)
    by_cases ha : a ∈ areaKeys rows
    · simp only [Function.comp, if_pos ha]
      rfl
    · simp only [Function.comp, if_neg ha]
      show (0 : ℚ) = groupTR rows a
      rw [groupTR, filter_area_nil (fun hm => ha (mem_areaKeys.mpr hm))]
      rfl
  rw [hmap, sum_partition NRow.Area_Name NRow.Total_Recovered rows catalog hnd]


/-! ## Claims C3, C9, C10 -/

/-- **C3** (claim corrected).  Aggregation itself conserves `Total_Crimes`,
but the left merge of line 161 keeps only catalog regions: the state
summary's total equals the total over the filtered rows **whose `Area_Name`
lies in the region catalog**.  Rows with a non-catalog region name are
dropped (see the counterexample), contrary to the claim's "including counts
from rows whose Area_Name is not a catalog region". -/
theorem C3_conservation_on_catalog (features : List String)
    (yr : Option (ℤ × ℤ)) (grp : Option String) (rows : List NRow) :
    ((stateSummary (get_all_states_df features) (filterRows yr grp rows)).map
        SRow.Total_Crimes).sum =
      (((filterRows yr grp rows).filter
          (fun r => decide (r.Area_Name ∈ get_all_states_df features))).map
        NRow.Total_Crimes).sum :=
  summary_TC_sum (catalog_nodup features) _

/-- **C3** counterexample: with catalog `["Delhi"]` and filtered rows for
Delhi (10 crimes) and the non-catalog region Atlantis (5 crimes), the state
summary sums to 10 while the rows sum to 15 — the merge dropped Atlantis. -/
theorem C3_counterexample :
    ((stateSummary (get_all_states_df ["Delhi"]) [rowDelhi10, rowAtlantis5]).map
      SRow.Total_Crimes).sum = 10 ∧
    (([rowDelhi10, rowAtlantis5] : List NRow).map NRow.Total_Crimes).sum = 15 ∧
    (10 : ℚ) ≠ 15 := by
  refine ⟨?_, ?_, by norm_num⟩
  · rw [stateSummary_apply]
    rw [show get_all_states_df ["Delhi"] = ["Delhi"] from by decide]
    rw [List.map_cons, List.map_nil,
      if_pos (show "Delhi" ∈ areaKeys [rowDelhi10, rowAtlantis5] from by decide)]
    simp only [List.map_cons, List.map_nil, List.sum_cons, List.sum_nil, add_zero]
    show groupTC _ "Delhi" = 10
    rw [groupTC,
      show ([rowDelhi10, rowAtlantis5] : List NRow).filter
          (fun r => decide (r.Area_Name = "Delhi")) = [rowDelhi10] from by decide]
    simp only [List.map_cons, List.map_nil, List.sum_cons, List.sum_nil, add_zero]
    rfl
  · simp only [List.map_cons, List.map_nil, List.sum_cons, List.sum_nil, add_zero,
      rowDelhi10, rowAtlantis5]
    norm_num

/-- **C9** (confirmed).  Every row of the per-state aggregate carries
`Recovery_Rate` recomputed from the summed numerator and denominator of its
group — `(Σ Total_Recovered) / (Σ Total_Crimes)` when the summed
`Total_Crimes` is positive and 0 otherwise — never an average of per-row
rates. -/
theorem C9_rate_recomputed (rows : List NRow) (a : String) (s : SRow)
    (h : (state_agg rows).find? (fun x => decide (x.Area_Name = a)) = some s) :
    s.Total_Crimes = groupTC rows a ∧
    s.Total_Recovered = groupTR rows a ∧
    s.Recovery_Rate =
      (if 0 < groupTC rows a then groupTR rows a / groupTC rows a else 0) := by
  rw [state_agg, find?_map_keyed (aggRow rows) SRow.Area_Name (fun k => rfl),
    find?_eq_self_key] at h
  by_cases ha : a ∈ areaKeys rows
  · rw [if_pos ha] at h
    have hs : s = aggRow rows a := (Option.some.inj h).symm
    subst hs
    exact ⟨rfl, rfl, rfl⟩
  · rw [if_neg ha] at h
    exact absurd h (by simp)

/-- Witness for `C9_rate_recomputed`: the spec's example — two rows for one
region with crimes {10, 0} and recovered {5, 0}.  (The rate is then
5/10 = 1/2, not the average 1/4 of the per-row rates 1/2 and 0.) -/
theorem C9_witness :
    (aggRow [rowDelhi10, rowDelhi0] "Delhi").Total_Crimes =
      groupTC [rowDelhi10, rowDelhi0] "Delhi" ∧
    (aggRow [rowDelhi10, rowDelhi0] "Delhi").Total_Recovered =
      groupTR [rowDelhi10, rowDelhi0] "Delhi" ∧
    (aggRow [rowDelhi10, rowDelhi0] "Delhi").Recovery_Rate =
      (if 0 < groupTC [rowDelhi10, rowDelhi0] "Delhi"
        then groupTR [rowDelhi10, rowDelhi0] "Delhi" /
          groupTC [rowDelhi10, rowDelhi0] "Delhi"
        else 0) :=
  C9_rate_recomputed [rowDelhi10, rowDelhi0] "Delhi" _ (by
    rw [state_agg,
      show areaKeys [rowDelhi10, rowDelhi0] = ["Delhi"] from by decide,
      List.map_cons, List.map_nil, List.find?_cons,
      show (decide ((aggRow [rowDelhi10, rowDelhi0] "Delhi").Area_Name = "Delhi")) =
        true from by decide])

/-- **C10** (confirmed, implicit claim).  A normalized row whose `Area_Name`
is not in the region catalog is silently dropped by the left merge: adding
such a row changes none of the three top-line KPIs, and the total-crimes KPI
equals the (truncated) sum over exactly the filtered rows with catalog
region names.  No error value exists on this path — the functions are
total. -/
theorem C10_non_catalog_dropped (features : List String) (rows : List NRow)
    (r : NRow) (hr : r.Area_Name ∉ get_all_states_df features) :
    total_crimes (stateSummary (get_all_states_df features) (r :: rows)) =
      total_crimes (stateSummary (get_all_states_df features) rows) ∧
    total_recovered (stateSummary (get_all_states_df features) (r :: rows)) =
      total_recovered (stateSummary (get_all_states_df features) rows) ∧
    recovery_rate (stateSummary (get_all_states_df features) (r :: rows)) =
      recovery_rate (stateSummary (get_all_states_df features) rows) ∧
    total_crimes (stateSummary (get_all_states_df features) rows) =
      pyInt (((rows.filter
          (fun x => decide (x.Area_Name ∈ get_all_states_df features))).map
        NRow.Total_Crimes).sum) := by
  have hfil : (r :: rows).filter
      (fun x => decide (x.Area_Name ∈ get_all_states_df features)) =
      rows.filter (fun x => decide (x.Area_Name ∈ get_all_states_df features)) := by
    rw [List.filter_cons, if_neg (by simpa using hr)]
  have h1 : total_crimes (stateSummary (get_all_states_df features) (r :: rows)) =
      total_crimes (stateSummary (get_all_states_df features) rows) := by
    rw [total_crimes, total_crimes, summary_TC_sum (catalog_nodup features),
      summary_TC_sum (catalog_nodup features), hfil]
  have h2 : total_recovered (stateSummary (get_all_states_df features) (r :: rows)) =
      total_recovered (stateSummary (get_all_states_df features) rows) := by
    rw [total_recovered, total_recovered, summary_TR_sum (catalog_nodup features),
      summary_TR_sum (catalog_nodup features), hfil]
  refine ⟨h1, h2, ?_, ?_⟩
  · rw [recovery_rate, recovery_rate, h1, h2]
  · rw [total_crimes, summary_TC_sum (catalog_nodup features)]

/-- Witness for `C10_non_catalog_dropped` at a concrete input. -/
theorem C10_witness :
    total_crimes (stateSummary (get_all_states_df ["Delhi"])
        (rowAtlantis5 :: [rowDelhi10])) =
      total_crimes (stateSummary (get_all_states_df ["Delhi"]) [rowDelhi10]) ∧
    total_recovered (stateSummary (get_all_states_df ["Delhi"])
        (rowAtlantis5 :: [rowDelhi10])) =
      total_recovered (stateSummary (get_all_states_df ["Delhi"]) [rowDelhi10]) ∧
    recovery_rate (stateSummary (get_all_states_df ["Delhi"])
        (rowAtlantis5 :: [rowDelhi10])) =
      recovery_rate (stateSummary (get_all_states_df ["Delhi"]) [rowDelhi10]) ∧
    total_crimes (stateSummary (get_all_states_df ["Delhi"]) [rowDelhi10]) =
      pyInt ((([rowDelhi10].filter
          (fun x => decide (x.Area_Name ∈ get_all_states_df ["Delhi"]))).map
        NRow.Total_Crimes).sum) :=
  C10_non_catalog_dropped ["Delhi"] [rowDelhi10] rowAtlantis5 (by decide)

/-! ## Claim C5 -/

theorem recoveryRate_nonneg {c r : ℚ} (h : 0 ≤ r) : 0 ≤ recoveryRate c r := by
  rw [recoveryRate]
  by_cases hc : 0 < c
  · rw [if_pos hc]
    exact div_nonneg h (le_of_lt hc)
  · rw [if_neg hc]

theorem groupTC_nonneg {rows : List NRow}
    (h : ∀ x ∈ rows, 0 ≤ x.Total_Crimes) (a : String) : 0 ≤ groupTC rows a :=
  List.sum_nonneg (fun q hq => by
    rcases List.mem_map.mp hq with ⟨x, hx, rfl⟩
    exact h x (List.mem_of_mem_filter hx))

theorem groupTR_nonneg {rows : List NRow}
    (h : ∀ x ∈ rows, 0 ≤ x.Total_Recovered) (a : String) : 0 ≤ groupTR rows a :=
  List.sum_nonneg (fun q hq => by
    rcases List.mem_map.mp hq with ⟨x, hx, rfl⟩
    exact h x (List.mem_of_mem_filter hx))

theorem groupLV_nonneg {rows : List NRow}
    (h : ∀ x ∈ rows, 0 ≤ x.Loss_Value) (a : String) : 0 ≤ groupLV rows a :=
  List.sum_nonneg (fun q hq => by
    rcases List.mem_map.mp hq with ⟨x, hx, rfl⟩
    exact h x (List.mem_of_mem_filter hx))

theorem countP_eq_one_of_nodup {l : List String} (hnd : l.Nodup) {r : String}
    (hr : r ∈ l) : l.countP (fun a => decide (a = r)) = 1 := by
  induction l with
  | nil => simp at hr
  | cons k ks ih =>
    rw [List.nodup_cons] at hnd
    rw [List.countP_cons]
    rcases List.mem_cons.mp hr with rfl | hr2
    · rw [List.countP_eq_zero.mpr (fun a ha => by
        simp only [decide_eq_true_eq]
        exact fun he => hnd.1 (he ▸ ha))]
      simp
    · have hk : k ≠ r := fun he => hnd.1 (he ▸ hr2)
      rw [ih hnd.2 hr2]
      simp [hk]

theorem summary_countP (catalog : List String) (rows : List NRow) (r : String) :
    (stateSummary catalog rows).countP (fun s => decide (s.Area_Name = r)) =
      catalog.countP (fun a => decide (a = r)) := by
  rw [stateSummary_apply, List.countP_map]
  induction catalog with
  | nil => rfl
  | cons a cs ih =>
    rw [List.countP_cons, List.countP_cons, ih]
    congr 1
    by_cases hm : a ∈ areaKeys rows <;> simp [Function.comp, hm, aggRow]

theorem find?_summary (catalog : List String) (rows : List NRow) (r : String) :
    (stateSummary catalog rows).find? (fun s => decide (s.Area_Name = r)) =
      (catalog.find? (fun a => decide (a = r))).map (fun a =>
        if a ∈ areaKeys rows then aggRow rows a
        else { Area_Name := a, Total_Crimes := 0, Total_Recovered := 0,
               Loss_Value := 0, Recovery_Rate := 0 }) := by
  rw [stateSummary_apply]
  exact find?_map_keyed _ SRow.Area_Name (fun k => by
    by_cases hm : k ∈ areaKeys rows <;> simp [hm, aggRow]) catalog r

/-- **C5** (claim corrected).  The state summary contains exactly one row per
catalog region; after the `fillna(0)` of lines 163-165 every metric field is
a plain number (never NaN), and a catalog region that occurs in no input row
gets the all-zero row.  The claimed unconditional non-negativity is false —
`Loss_Value` is stolen minus recovered value and can be negative (see the
counterexample) — so the non-negativity of all four fields is proved under
the hypothesis that every input row's `Total_Crimes`, `Total_Recovered` and
`Loss_Value` are non-negative. -/
theorem C5_completeness_zero_fill (features : List String) (rows : List NRow)
    (r : String)
    (hnn : ∀ x ∈ rows,
      0 ≤ x.Total_Crimes ∧ 0 ≤ x.Total_Recovered ∧ 0 ≤ x.Loss_Value)
    (hr : r ∈ get_all_states_df features) :
    ((stateSummary (get_all_states_df features) rows).countP
        (fun s => decide (s.Area_Name = r)) = 1) ∧
    (∀ s ∈ stateSummary (get_all_states_df features) rows,
      0 ≤ s.Total_Crimes ∧ 0 ≤ s.Total_Recovered ∧ 0 ≤ s.Loss_Value ∧
        0 ≤ s.Recovery_Rate) ∧
    ((∀ x ∈ rows, x.Area_Name ≠ r) →
      (stateSummary (get_all_states_df features) rows).find?
          (fun s => decide (s.Area_Name = r)) =
        some { Area_Name := r, Total_Crimes := 0, Total_Recovered := 0,
               Loss_Value := 0, Recovery_Rate := 0 }) := by
  refine ⟨?_, ?_, ?_⟩
  · rw [summary_countP]
    exact countP_eq_one_of_nodup (catalog_nodup features) hr
  · intro s hs
    rw [stateSummary_apply] at hs
    rcases List.mem_map.mp hs with ⟨a, _, rfl⟩
    by_cases hm : a ∈ areaKeys rows
    · rw [if_pos hm]
      exact ⟨groupTC_nonneg (fun x hx => (hnn x hx).1) a,
        groupTR_nonneg (fun x hx => (hnn x hx).2.1) a,
        groupLV_nonneg (fun x hx => (hnn x hx).2.2) a,
        recoveryRate_nonneg (groupTR_nonneg (fun x hx => (hnn x hx).2.1) a)⟩
    · rw [if_neg hm]
      norm_num
  · intro habs
    have hnk : r ∉ areaKeys rows := fun hm => by
      rcases List.mem_map.mp (mem_areaKeys.mp hm) with ⟨x, hx, he⟩
      exact habs x hx he
    rw [find?_summary, find?_eq_self_key, if_pos hr]
    simp [hnk]

/-- **C5** counterexample: a single normalized row for Delhi with
`Loss_Value = -5` (reachable from `load_data`, since the loss is stolen
minus recovered value) gives a state-summary row with `Loss_Value = -5`,
violating the claimed "`Loss_Value` ... `>= 0`". -/
theorem C5_counterexample :
    (stateSummary (get_all_states_df ["Delhi"]) [rowDelhiNegLoss]).map
      SRow.Loss_Value = [-5] ∧ ¬ ((0 : ℚ) ≤ -5) := by
  refine ⟨?_, by norm_num⟩
  rw [stateSummary_apply, show get_all_states_df ["Delhi"] = ["Delhi"] from by decide,
    List.map_cons, List.map_nil,
    if_pos (show "Delhi" ∈ areaKeys [rowDelhiNegLoss] from by decide),
    List.map_cons, List.map_nil]
  show [groupLV [rowDelhiNegLoss] "Delhi"] = [-5]
  rw [groupLV, show ([rowDelhiNegLoss] : List NRow).filter
      (fun r => decide (r.Area_Name = "Delhi")) = [rowDelhiNegLoss] from by decide]
  simp only [List.map_cons, List.map_nil, List.sum_cons, List.sum_nil, add_zero]
  rfl

/-- Witness for `C5_completeness_zero_fill` with an empty row set (the pure
zero-fill situation). -/
theorem C5_witness :
    ((stateSummary (get_all_states_df ["Delhi"]) []).countP
        (fun s => decide (s.Area_Name = "Delhi")) = 1) ∧
    (∀ s ∈ stateSummary (get_all_states_df ["Delhi"]) [],
      0 ≤ s.Total_Crimes ∧ 0 ≤ s.Total_Recovered ∧ 0 ≤ s.Loss_Value ∧
        0 ≤ s.Recovery_Rate) ∧
    ((∀ x ∈ ([] : List NRow), x.Area_Name ≠ "Delhi") →
      (stateSummary (get_all_states_df ["Delhi"]) []).find?
          (fun s => decide (s.Area_Name = "Delhi")) =
        some { Area_Name := "Delhi", Total_Crimes := 0, Total_Recovered := 0,
               Loss_Value := 0, Recovery_Rate := 0 }) :=
  C5_completeness_zero_fill ["Delhi"] [] "Delhi" (by simp) (by decide)


/-! ## Claim C4 -/

theorem strLeChars_total : ∀ as bs : List Char,
    strLeChars as bs = true ∨ strLeChars bs as = true
  | [], _ => Or.inl rfl
  | _ :: _, [] => Or.inr rfl
  | a :: as, b :: bs => by
    rw [strLeChars, strLeChars]
    by_cases hab : a.toNat < b.toNat
    · exact Or.inl (by rw [if_pos hab])
    · by_cases hba : b.toNat < a.toNat
      · exact Or.inr (by rw [if_pos hba])
      · rw [if_neg hab, if_neg hba, if_neg hba, if_neg hab]
        exact strLeChars_total as bs

theorem strLeChars_trans : ∀ as bs cs : List Char,
    strLeChars as bs = true → strLeChars bs cs = true → strLeChars as cs = true
  | [], _, _, _, _ => rfl
  | _ :: _, [], _, h1, _ => by simp [strLeChars] at h1
  | _ :: _, _ :: _, [], _, h2 => by simp [strLeChars] at h2
  | a :: as, b :: bs, c :: cs, h1, h2 => by
    rw [strLeChars] at h1 h2 ⊢
    by_cases hab : a.toNat < b.toNat
    · by_cases hbc : b.toNat < c.toNat
      · rw [if_pos (show a.toNat < c.toNat by omega)]
      · rw [if_neg hbc] at h2
        by_cases hcb : c.toNat < b.toNat
        · rw [if_pos hcb] at h2
          exact absurd h2 (by simp)
        · rw [if_pos (show a.toNat < c.toNat by omega)]
    · rw [if_neg hab] at h1
      by_cases hba : b.toNat < a.toNat
      · rw [if_pos hba] at h1
        exact absurd h1 (by simp)
      · rw [if_neg hba] at h1
        by_cases hbc : b.toNat < c.toNat
        · rw [if_pos (show a.toNat < c.toNat by omega)]
        · rw [if_neg hbc] at h2
          by_cases hcb : c.toNat < b.toNat
          · rw [if_pos hcb] at h2
            exact absurd h2 (by simp)
          · rw [if_neg hcb] at h2
            rw [if_neg (show ¬ a.toNat < c.toNat by omega),
              if_neg (show ¬ c.toNat < a.toNat by omega)]
            exact strLeChars_trans as bs cs h1 h2

theorem strLe_total (a b : String) : strLe a b = true ∨ strLe b a = true :=
  strLeChars_total a.data b.data

theorem strLe_trans {a b c : String} (h1 : strLe a b = true)
    (h2 : strLe b c = true) : strLe a c = true :=
  strLeChars_trans a.data b.data c.data h1 h2

theorem sorted_sortAsc (l : List String) :
    (sortAsc l).Sorted (fun a b => strLe a b = true) := by
  haveI : IsTotal String (fun a b => strLe a b = true) := ⟨strLe_total⟩
  haveI : IsTrans String (fun a b => strLe a b = true) :=
    ⟨fun _ _ _ => strLe_trans⟩
  exact List.sorted_insertionSort _ l

theorem subKeys_nodup (rows : List NRow) : (subKeys rows).Nodup :=
  ((sortAsc_perm _).nodup_iff).mpr (List.nodup_dedup _)

theorem mem_subKeys {rows : List NRow} {k : String} :
    k ∈ subKeys rows ↔ k ∈ rows.map NRow.Sub_Group_Name := by
  rw [subKeys, mem_sortAsc, List.mem_dedup]

theorem subKeys_pairwise (rows : List NRow) :
    (subKeys rows).Pairwise (fun a b => strLe a b = true ∧ a ≠ b) :=
  (sorted_sortAsc _).and ((subKeys_nodup rows).imp (fun h => h))

theorem subGroups_pairwise (rows : List NRow) :
    (subGroups rows).Pairwise (fun p q : String × ℚ =>
      strLe p.1 q.1 = true ∧ p.1 ≠ q.1) := by
  rw [subGroups, List.pairwise_map]
  exact subKeys_pairwise rows

theorem pairwise_rank_orderedInsert (x : String × ℚ) :
    ∀ L : List (String × ℚ), L.Sorted valGE →
    L.Pairwise (fun p q => q.2 < p.2 ∨
      (p.2 = q.2 ∧ strLe p.1 q.1 = true ∧ p.1 ≠ q.1)) →
    (∀ y ∈ L, x.2 = y.2 → strLe x.1 y.1 = true ∧ x.1 ≠ y.1) →
    (L.orderedInsert valGE x).Pairwise (fun p q => q.2 < p.2 ∨
      (p.2 = q.2 ∧ strLe p.1 q.1 = true ∧ p.1 ≠ q.1))
  | [], _, _, _ => List.pairwise_singleton _ x
  | y :: ys, hsort, hR, hx => by
    rw [List.orderedInsert]
    by_cases hxy : valGE x y
    · rw [if_pos hxy]
      refine List.pairwise_cons.mpr ⟨fun z hz => ?_, hR⟩
      have hzy : z.2 ≤ x.2 := by
        rcases List.mem_cons.mp hz with rfl | hz2
        · exact hxy
        · exact le_trans (List.rel_of_sorted_cons hsort z hz2) hxy
      rcases lt_or_eq_of_le hzy with hlt | heq
      · exact Or.inl hlt
      · exact Or.inr ⟨heq.symm, hx z hz heq.symm⟩
    · rw [if_neg hxy]
      have hyx : x.2 < y.2 := lt_of_not_le (fun hle => hxy hle)
      refine List.pairwise_cons.mpr ⟨fun z hz => ?_, ?_⟩
      · rcases (List.mem_orderedInsert valGE).mp hz with rfl | hz2
        · exact Or.inl hyx
        · exact (List.pairwise_cons.mp hR).1 z hz2
      · exact pairwise_rank_orderedInsert x ys hsort.of_cons hR.of_cons
          (fun z hz => hx z (List.mem_cons_of_mem _ hz))

theorem pairwise_rank_insertionSort :
    ∀ L : List (String × ℚ),
    L.Pairwise (fun p q => strLe p.1 q.1 = true ∧ p.1 ≠ q.1) →
    (List.insertionSort valGE L).Pairwise (fun p q => q.2 < p.2 ∨
      (p.2 = q.2 ∧ strLe p.1 q.1 = true ∧ p.1 ≠ q.1))
  | [], _ => List.Pairwise.nil
  | x :: xs, hKey => by
    rw [List.insertionSort]
    refine pairwise_rank_orderedInsert x (List.insertionSort valGE xs)
      (List.sorted_insertionSort valGE xs)
      (pairwise_rank_insertionSort xs hKey.of_cons)
      (fun y hy _ => ?_)
    exact (List.pairwise_cons.mp hKey).1 y ((List.mem_insertionSort valGE).mp hy)

theorem mem_subGroups {rows : List NRow} {p : String × ℚ}
    (hp : p ∈ subGroups rows) :
    p.2 = groupSubTC rows p.1 ∧ p.1 ∈ rows.map NRow.Sub_Group_Name := by
  rw [subGroups] at hp
  rcases List.mem_map.mp hp with ⟨k, hk, rfl⟩
  exact ⟨rfl, mem_subKeys.mp hk⟩

/-- **C4** (claim corrected).  The subgroup summary groups the drill-down
rows by `Sub_Group_Name`, sums `Total_Crimes` per group, sorts descending
by the sum and truncates to at most 15 rows.  But ties are **not** broken
by the original encounter order: `groupby` (default `sort=True`) has
already replaced encounter order by ascending key order before the value
sort, and `sort_values` defaults to numpy's unstable quicksort, which
guarantees no order at all among groups with equal sums (the counterexample
shows the encounter order being lost).  The theorem states the
order-independent guarantees, which hold for any admissible sort:
(1) at most 15 rows; (2) every output pair carries its group's sum and an
observed subgroup name; (3) the output is sorted by weakly decreasing sum;
(4) when there are at most 15 groups, the output's keys are exactly the
observed subgroup names. -/
theorem C4_subgroup_summary (sel : Option String) (rows : List NRow) :
    (sub_grp (drillRows sel rows)).length ≤ 15 ∧
    (∀ p ∈ sub_grp (drillRows sel rows),
      p.2 = groupSubTC (drillRows sel rows) p.1 ∧
        p.1 ∈ (drillRows sel rows).map NRow.Sub_Group_Name) ∧
    (sub_grp (drillRows sel rows)).Pairwise (fun p q => q.2 ≤ p.2) ∧
    ((subGroups (drillRows sel rows)).length ≤ 15 →
      ∀ k : String, (∃ v, (k, v) ∈ sub_grp (drillRows sel rows)) ↔
        k ∈ (drillRows sel rows).map NRow.Sub_Group_Name) := by
  refine ⟨?_, ?_, ?_, ?_⟩
  · rw [sub_grp, List.length_take]
    exact min_le_left _ _
  · intro p hp
    have hp2 : p ∈ subGroups (drillRows sel rows) :=
      (List.perm_insertionSort valGE _).mem_iff.mp
        (List.mem_of_mem_take (by exact hp))
    exact mem_subGroups hp2
  · exact (List.Pairwise.sublist (List.take_sublist _ _)
      (pairwise_rank_insertionSort _ (subGroups_pairwise _))).imp
      (fun h => h.elim le_of_lt (fun h2 => le_of_eq h2.1.symm))
  · intro hlen k
    have hfull : sub_grp (drillRows sel rows) =
        List.insertionSort valGE (subGroups (drillRows sel rows)) := by
      rw [sub_grp]
      exact List.take_of_length_le (by
        rw [List.length_insertionSort]
        exact hlen)
    rw [hfull]
    constructor
    · rintro ⟨v, hv⟩
      exact (mem_subGroups ((List.perm_insertionSort valGE _).mem_iff.mp hv)).2
    · intro hk
      refine ⟨groupSubTC (drillRows sel rows) k, ?_⟩
      rw [(List.perm_insertionSort valGE _).mem_iff]
      rw [subGroups]
      exact List.mem_map.mpr ⟨k, mem_subKeys.mpr hk, rfl⟩

/-- **C4** counterexample: two rows whose subgroups are encountered in the
order B, A with equal sums 5.  The summary comes out `[("A", 5), ("B", 5)]`
(keys pre-sorted by groupby), not in the encounter order
`[("B", 5), ("A", 5)]` the claim requires for ties. -/
theorem C4_counterexample :
    sub_grp [rowSubB, rowSubA] = [("A", 5), ("B", 5)] ∧
    ([(("A" : String), (5 : ℚ)), ("B", 5)] ≠ [("B", 5), ("A", 5)]) := by
  constructor
  · rw [sub_grp, subGroups,
      show subKeys [rowSubB, rowSubA] = ["A", "B"] from by decide,
      List.map_cons, List.map_cons, List.map_nil]
    have hA : groupSubTC [rowSubB, rowSubA] "A" = 5 := by
      rw [groupSubTC, show ([rowSubB, rowSubA] : List NRow).filter
          (fun r => decide (r.Sub_Group_Name = "A")) = [rowSubA] from by decide]
      simp [rowSubA]
    have hB : groupSubTC [rowSubB, rowSubA] "B" = 5 := by
      rw [groupSubTC, show ([rowSubB, rowSubA] : List NRow).filter
          (fun r => decide (r.Sub_Group_Name = "B")) = [rowSubB] from by decide]
      simp [rowSubB]
    rw [hA, hB]
    rw [show List.insertionSort valGE [(("A" : String), (5 : ℚ)), ("B", 5)] =
        List.orderedInsert valGE ("A", 5) [("B", 5)] from rfl]
    rw [List.orderedInsert_of_le valGE _ (by norm_num [valGE])]
    rfl
  · decide

/-- Witness for `C4_subgroup_summary` at a concrete drill-down input. -/
theorem C4_witness :
    (sub_grp (drillRows none [rowSubB, rowSubA])).length ≤ 15 ∧
    (∀ p ∈ sub_grp (drillRows none [rowSubB, rowSubA]),
      p.2 = groupSubTC (drillRows none [rowSubB, rowSubA]) p.1 ∧
        p.1 ∈ (drillRows none [rowSubB, rowSubA]).map NRow.Sub_Group_Name) ∧
    (sub_grp (drillRows none [rowSubB, rowSubA])).Pairwise (fun p q => q.2 ≤ p.2) ∧
    ((subGroups (drillRows none [rowSubB, rowSubA])).length ≤ 15 →
      ∀ k : String, (∃ v, (k, v) ∈ sub_grp (drillRows none [rowSubB, rowSubA])) ↔
        k ∈ (drillRows none [rowSubB, rowSubA]).map NRow.Sub_Group_Name) :=
  C4_subgroup_summary none [rowSubB, rowSubA]


/-! ## Claim C8: counterexample -/

/-- **C8** counterexample: normalization is not idempotent.  The generic
table with columns `[Area_Name, Total_Recovered]` normalizes to a table
whose `Total_Crimes` is `[7]`; renormalizing that output rebases
`Total_Crimes` on the (zeroed) `Total_Recovered` column — the first numeric
column whose name contains `"total"` — giving `[0]`.  The second pass
succeeds but returns a different table. -/
theorem C8_counterexample :
    load_data "g.csv" tblGenC8 = .ok tblGenC8Out ∧
    load_data "g.csv" tblGenC8Out = .ok tblGenC8Out2 ∧
    tblGenC8Out2 ≠ tblGenC8Out := by
  refine ⟨rfl, rfl, by decide⟩


/-! ## Claim C8: strip idempotence -/

theorem dropWhile_idem {α : Type} (p : α → Bool) (l : List α) :
    (l.dropWhile p).dropWhile p = l.dropWhile p := by
  induction l with
  | nil => rfl
  | cons a as ih =>
    by_cases h : p a
    · simp only [List.dropWhile_cons, if_pos h]
      exact ih
    · simp only [List.dropWhile_cons, if_neg h]

theorem dropWhile_eq_self_of_prefix {α : Type} (p : α → Bool) {u v : List α}
    (hu : u.dropWhile p = u) (hv : v.IsPrefix u) : v.dropWhile p = v := by
  cases v with
  | nil => rfl
  | cons a v2 =>
    rcases hv with ⟨w, hw⟩
    have hpa : p a = false := by
      by_contra hpa
      have hpa2 : p a = true := by
        cases hhh : p a
        · exact absurd hhh hpa
        · rfl
      have : u.dropWhile p = (v2 ++ w).dropWhile p := by
        rw [← hw, List.cons_append, List.dropWhile_cons, if_pos hpa2]
      have hlen : u.length ≤ (v2 ++ w).length := by
        rw [hu] at this
        calc u.length = ((v2 ++ w).dropWhile p).length := by rw [this]
          _ ≤ (v2 ++ w).length := (List.dropWhile_suffix p).sublist.length_le
      rw [← hw] at hlen
      simp at hlen
    rw [List.dropWhile_cons, if_neg (by simp [hpa])]

theorem pyStripChars_idem (cs : List Char) :
    pyStripChars (pyStripChars cs) = pyStripChars cs := by
  rw [pyStripChars, pyStripChars]
  set u := cs.dropWhile isSpaceChar with hu
  set w := u.reverse.dropWhile isSpaceChar with hw
  have hwu : w.IsSuffix u.reverse := List.dropWhile_suffix _
  have hvu : w.reverse.IsPrefix u := by
    have h0 : w.reverse.IsPrefix u.reverse.reverse := hwu.reverse
    rwa [List.reverse_reverse] at h0
  have hdu : u.dropWhile isSpaceChar = u := dropWhile_idem _ cs
  have h1 : w.reverse.dropWhile isSpaceChar = w.reverse :=
    dropWhile_eq_self_of_prefix _ hdu hvu
  rw [h1, List.reverse_reverse]
  have h2 : w.dropWhile isSpaceChar = w := by
    rw [hw]
    exact dropWhile_idem _ u.reverse
  rw [h2]

theorem pyStrip_idem (s : String) : pyStrip (pyStrip s) = pyStrip s := by
  show (⟨pyStripChars (pyStripChars s.data)⟩ : String) = ⟨pyStripChars s.data⟩
  rw [pyStripChars_idem]

theorem stripCell_fixed (v : Option String) :
    ∃ s, stripCell v = some s ∧ pyStrip s = s := by
  cases v with
  | none => exact ⟨"nan", rfl, by decide⟩
  | some s => exact ⟨pyStrip s, rfl, pyStrip_idem s⟩

theorem map_id_of {α : Type} {f : α → α} {l : List α}
    (h : ∀ a ∈ l, f a = a) : l.map f = l := by
  induction l with
  | nil => rfl
  | cons a as ih =>
    rw [List.map_cons, h a (List.mem_cons_self a as),
      ih (fun x hx => h x (List.mem_cons_of_mem a hx))]

theorem stripCol_of_fixed {d : ColData} (h : objCellsFixed d) :
    stripCol d = d := by
  cases d with
  | num vs => rfl
  | obj vs =>
    rw [stripCol]
    congr 1
    refine map_id_of (fun v hv => ?_)
    rcases h v hv with ⟨s, rfl, hs⟩
    rw [stripCell, hs]

theorem objCellsFixed_stripCol (d : ColData) : objCellsFixed (stripCol d) := by
  cases d with
  | num vs => trivial
  | obj vs =>
    intro v hv
    rcases List.mem_map.mp hv with ⟨v0, _, rfl⟩
    exact stripCell_fixed v0

theorem stripStep_of_ObjFixed {t : Table} (h : ObjFixed t) : stripStep t = t := by
  rw [stripStep]
  refine map_id_of (fun p hp => ?_)
  rw [stripCol_of_fixed (h p hp)]

theorem ObjFixed_stripStep (t : Table) : ObjFixed (stripStep t) := by
  intro p hp
  rcases List.mem_map.mp hp with ⟨q, _, rfl⟩
  exact objCellsFixed_stripCol q.2


/-! ## Claim C8: invariant preservation -/

theorem mem_setColIn {t : Table} {c : String} {d : ColData} {p : String × ColData}
    (hp : p ∈ setColIn t c d) : p = (c, d) ∨ p ∈ t := by
  induction t with
  | nil => simp [setColIn] at hp
  | cons q qs ih =>
    rw [setColIn] at hp
    rcases List.mem_cons.mp hp with h1 | h1
    · by_cases hq : q.1 = c
      · rw [if_pos hq] at h1
        exact Or.inl h1
      · rw [if_neg hq] at h1
        exact Or.inr (h1 ▸ List.mem_cons_self q qs)
    · rcases ih h1 with h2 | h2
      · exact Or.inl h2
      · exact Or.inr (List.mem_cons_of_mem q h2)

theorem mem_setCol {t : Table} {c : String} {d : ColData} {p : String × ColData}
    (hp : p ∈ setCol t c d) : p = (c, d) ∨ p ∈ t := by
  rw [setCol] at hp
  by_cases h : c ∈ tblNames t
  · rw [if_pos h] at hp
    exact mem_setColIn hp
  · rw [if_neg h] at hp
    rcases List.mem_append.mp hp with h1 | h1
    · exact Or.inr h1
    · exact Or.inl (by simpa using h1)

theorem ObjFixed_setCol {t : Table} {c : String} {d : ColData}
    (ht : ObjFixed t) (hd : objCellsFixed d) : ObjFixed (setCol t c d) := by
  intro p hp
  rcases mem_setCol hp with rfl | hp2
  · exact hd
  · exact ht p hp2

theorem ObjFixed_renameCol {t : Table} (o n : String) (ht : ObjFixed t) :
    ObjFixed (renameCol t o n) := by
  intro p hp
  rcases List.mem_map.mp hp with ⟨q, hq, rfl⟩
  by_cases h : q.1 = o
  · rw [if_pos h]
    exact ht q hq
  · rw [if_neg h]
    exact ht q hq

theorem ObjFixed_resolveArea {t : Table} (ht : ObjFixed t) :
    ObjFixed (resolveArea t) := by
  rw [resolveArea]
  by_cases h : "Area_Name" ∈ tblNames t
  · rwa [if_pos h]
  · rw [if_neg h]
    rcases areaAliases.find? (fun a => decide (a ∈ tblNames t)) with _ | a
    · exact ht
    · exact ObjFixed_renameCol _ _ ht

theorem ObjFixed_yearStep {t u : Table} (h : yearStep t = .ok u)
    (ht : ObjFixed t) : ObjFixed u := by
  rcases yearStep_ok_cases h with ⟨_, rfl⟩ | ⟨d, _, _, rfl⟩
  · exact ht
  · refine ObjFixed_setCol ht ?_
    cases d <;> trivial

theorem objCellsFixed_coerceTry {d : ColData} (h : objCellsFixed d) :
    objCellsFixed (coerceTry d) := by
  cases d with
  | num vs => trivial
  | obj vs =>
    rw [coerceTry]
    by_cases hall : vs.all cellParses
    · rw [if_pos hall]
      trivial
    · rwa [if_neg hall]

theorem ObjFixed_coerceStep {t : Table} (ht : ObjFixed t) :
    ObjFixed (coerceStep t) := by
  intro p hp
  rcases List.mem_map.mp hp with ⟨q, hq, rfl⟩
  by_cases h : q.1 ∈ categoricalCols
  · rw [if_pos h]
    exact ht q hq
  · rw [if_neg h]
    exact objCellsFixed_coerceTry (ht q hq)

theorem canonName_strip_fixed {s : String} (h : pyStrip s = s) :
    pyStrip (canonName s) = canonName s := by
  rw [canonName]
  rcases hf : STATE_MAP.find? (fun p => decide (p.1 = s)) with _ | q
  · rw [hf]
    simpa using h
  · rw [hf]
    have hq : q ∈ STATE_MAP := List.mem_of_find?_eq_some hf
    have hvals : ∀ p ∈ STATE_MAP, pyStrip p.2 = p.2 := by decide
    simpa using hvals q hq

theorem objCellsFixed_canonCol {d : ColData} (h : objCellsFixed d) :
    objCellsFixed (canonCol d) := by
  cases d with
  | num vs => trivial
  | obj vs =>
    intro v hv
    rcases List.mem_map.mp hv with ⟨v0, hv0, rfl⟩
    rcases h v0 hv0 with ⟨s, rfl, hs⟩
    exact ⟨canonName s, rfl, canonName_strip_fixed hs⟩

theorem ObjFixed_defaultsStep {t : Table} (ht : ObjFixed t) :
    ObjFixed (defaultsStep t) := by
  have hoverall : objCellsFixed (ColData.obj (List.replicate (nRows t) (some "Overall"))) := by
    intro v hv
    rw [List.eq_of_mem_replicate hv]
    exact ⟨"Overall", rfl, by decide⟩
  rw [defaultsStep]
  split_ifs
  · exact ht
  · refine ObjFixed_setCol ht ?_
    intro v hv
    rw [List.eq_of_mem_replicate hv]
    exact ⟨"Overall", rfl, by decide⟩
  · exact ObjFixed_setCol ht hoverall
  · refine ObjFixed_setCol (ObjFixed_setCol ht hoverall) ?_
    intro v hv
    rw [List.eq_of_mem_replicate hv]
    exact ⟨"Overall", rfl, by decide⟩

theorem ObjFixed_propertyCols {t : Table} (ht : ObjFixed t) :
    ObjFixed (propertyCols t) := by
  rw [propertyCols]
  exact ObjFixed_setCol (ObjFixed_setCol (ObjFixed_setCol (ObjFixed_setCol
    (ObjFixed_setCol (ObjFixed_setCol ht trivial) trivial) trivial) trivial)
    trivial) trivial

theorem coerceTry_idem (d : ColData) : coerceTry (coerceTry d) = coerceTry d := by
  cases d with
  | num vs => rfl
  | obj vs =>
    rw [coerceTry]
    by_cases hall : vs.all cellParses
    · rw [if_pos hall]
      rfl
    · rw [if_neg hall, coerceTry, if_neg hall]

theorem CoerceFixed_coerceStep (t : Table) : CoerceFixed (coerceStep t) := by
  intro p hp hcat
  rcases List.mem_map.mp hp with ⟨q, hq, rfl⟩
  by_cases h : q.1 ∈ categoricalCols
  · rw [if_pos h] at hcat ⊢
    exact absurd h hcat
  · rw [if_neg h]
    exact coerceTry_idem q.2

theorem CoerceFixed_setCol {t : Table} {c : String} {d : ColData}
    (ht : CoerceFixed t) (hd : coerceTry d = d) : CoerceFixed (setCol t c d) := by
  intro p hp hcat
  rcases mem_setCol hp with rfl | hp2
  · exact hd
  · exact ht p hp2 hcat

theorem CoerceFixed_setCol_cat {t : Table} {c : String} {d : ColData}
    (ht : CoerceFixed t) (hc : c ∈ categoricalCols) : CoerceFixed (setCol t c d) := by
  intro p hp hcat
  rcases mem_setCol hp with rfl | hp2
  · exact absurd hc hcat
  · exact ht p hp2 hcat

theorem CoerceFixed_propertyCols {t : Table} (ht : CoerceFixed t) :
    CoerceFixed (propertyCols t) := by
  rw [propertyCols]
  exact CoerceFixed_setCol (CoerceFixed_setCol (CoerceFixed_setCol
    (CoerceFixed_setCol (CoerceFixed_setCol (CoerceFixed_setCol ht rfl) rfl) rfl)
    rfl) rfl) rfl

theorem CoerceFixed_defaultsStep {t : Table} (ht : CoerceFixed t) :
    CoerceFixed (defaultsStep t) := by
  rw [defaultsStep]
  split_ifs
  · exact ht
  · exact CoerceFixed_setCol_cat ht (by decide)
  · exact CoerceFixed_setCol_cat ht (by decide)
  · exact CoerceFixed_setCol_cat (CoerceFixed_setCol_cat ht (by decide)) (by decide)

theorem getCol_renameCol_ne {t : Table} {o n c : String}
    (ho : o ≠ c) (hn : n ≠ c) : getCol (renameCol t o n) c = getCol t c := by
  induction t with
  | nil => rfl
  | cons q qs ih =>
    by_cases hq : q.1 = o
    · rw [renameCol] at *
      simp only [List.map_cons, if_pos hq, getCol]
      rw [if_neg hn, if_neg (hq ▸ ho), ih]
    · rw [renameCol] at *
      simp only [List.map_cons, if_neg hq, getCol]
      by_cases hqc : q.1 = c
      · rw [if_pos hqc, if_pos hqc]
      · rw [if_neg hqc, if_neg hqc, ih]

theorem YearInt_yearStep {t u : Table} (h : yearStep t = .ok u) : YearInt u := by
  rcases yearStep_ok_cases h with ⟨hg, rfl⟩ | ⟨d0, hg, hi, rfl⟩
  · intro d hd
    rw [hg] at hd
    exact Option.noConfusion hd
  · intro d hd
    rw [getCol_setCol_self] at hd
    have hde : d = coerceNum d0 := (Option.some.inj hd).symm
    subst hde
    exact hi

theorem YearInt_resolveArea {t : Table} (ht : YearInt t) : YearInt (resolveArea t) := by
  intro d hd
  rw [resolveArea] at hd
  by_cases h : "Area_Name" ∈ tblNames t
  · rw [if_pos h] at hd
    exact ht d hd
  · rw [if_neg h] at hd
    rcases hf : areaAliases.find? (fun a => decide (a ∈ tblNames t)) with _ | a
    · rw [hf] at hd
      exact ht d hd
    · rw [hf] at hd
      have ha : a ∈ areaAliases := List.mem_of_find?_eq_some hf
      have hay : a ≠ "Year" := by
        have : ∀ x ∈ areaAliases, x ≠ "Year" := by decide
        exact this a ha
      rw [getCol_renameCol_ne hay (by decide)] at hd
      exact ht d hd

theorem YearInt_coerceStep {t : Table} (ht : YearInt t) : YearInt (coerceStep t) := by
  intro d hd
  rw [getCol_coerceStep] at hd
  rcases hy : getCol t "Year" with _ | d0
  · rw [hy] at hd
    exact Option.noConfusion hd
  · rw [hy] at hd
    have h0 := ht d0 hy
    have heq : (if "Year" ∈ categoricalCols then d0 else coerceTry d0) = d := by
      simpa using hd
    rw [if_neg (show "Year" ∉ categoricalCols by decide)] at heq
    rw [← heq]
    cases d0 with
    | obj vs => exact absurd h0 (by simp [integralCol])
    | num vs => exact h0

theorem YearInt_setCol_ne {t : Table} {c : String} {d : ColData}
    (ht : YearInt t) (hc : c ≠ "Year") : YearInt (setCol t c d) := by
  intro d0 hd0
  rw [getCol_setCol_ne t d (fun h => hc h.symm)] at hd0
  exact ht d0 hd0

theorem YearInt_propertyCols {t : Table} (ht : YearInt t) :
    YearInt (propertyCols t) := by
  rw [propertyCols]
  exact YearInt_setCol_ne (YearInt_setCol_ne (YearInt_setCol_ne (YearInt_setCol_ne
    (YearInt_setCol_ne (YearInt_setCol_ne ht (by decide)) (by decide)) (by decide))
    (by decide)) (by decide)) (by decide)

theorem YearInt_defaultsStep {t : Table} (ht : YearInt t) :
    YearInt (defaultsStep t) := by
  rw [defaultsStep]
  split_ifs
  · exact ht
  · exact YearInt_setCol_ne ht (by decide)
  · exact YearInt_setCol_ne ht (by decide)
  · exact YearInt_setCol_ne (YearInt_setCol_ne ht (by decide)) (by decide)

theorem yearStep_of_YearInt {t : Table} (hnd : (tblNames t).Nodup)
    (ht : YearInt t) : yearStep t = .ok t := by
  rw [yearStep]
  rcases hy : getCol t "Year" with _ | d <;> simp only [hy]
  · have hi := ht d hy
    have hcn : coerceNum d = d := by
      cases d with
      | obj vs => exact absurd hi (by simp [integralCol])
      | num vs => rfl
    rw [hcn, if_pos hi, setCol_same hnd hy]

theorem coerceStep_of_CoerceFixed {t : Table} (ht : CoerceFixed t) :
    coerceStep t = t := by
  rw [coerceStep]
  refine map_id_of (fun p hp => ?_)
  by_cases h : p.1 ∈ categoricalCols
  · rw [if_pos h]
  · rw [if_neg h, ht p hp h]


/-! ## Claim C8: well-formedness and row-count preservation -/

theorem getCol_mem {t : Table} {c : String} {d : ColData}
    (h : getCol t c = some d) : (c, d) ∈ t := by
  induction t with
  | nil => exact Option.noConfusion h
  | cons p ps ih =>
    rw [getCol] at h
    by_cases hp : p.1 = c
    · rw [if_pos hp] at h
      have : p = (c, d) := by
        rcases p with ⟨p1, p2⟩
        rw [Prod.mk.injEq]
        exact ⟨hp, Option.some.inj h⟩
      exact this ▸ List.mem_cons_self p ps
    · rw [if_neg hp] at h
      exact List.mem_cons_of_mem p (ih h)

theorem colLen_stripCol (d : ColData) : colLen (stripCol d) = colLen d := by
  cases d <;> simp [stripCol, colLen]

theorem colLen_coerceNum (d : ColData) : colLen (coerceNum d) = colLen d := by
  cases d <;> simp [coerceNum, colLen]

theorem colLen_coerceTry (d : ColData) : colLen (coerceTry d) = colLen d := by
  cases d with
  | num vs => rfl
  | obj vs =>
    rw [coerceTry]
    by_cases h : vs.all cellParses
    · rw [if_pos h]
      simp [colLen]
    · rw [if_neg h]

theorem colLen_canonCol (d : ColData) : colLen (canonCol d) = colLen d := by
  cases d <;> simp [canonCol, colLen]

theorem length_fill0 (d : ColData) : (fill0 d).length = colLen d := by
  cases d <;> simp [fill0, colLen]

theorem colLen_constCol (n : ℕ) (q : ℚ) : colLen (constCol n q) = n := by
  simp [constCol, colLen]

theorem nRows_setCol {t : Table} {c : String} {d : ColData}
    (hlen : colLen d = nRows t) : nRows (setCol t c d) = nRows t := by
  rw [setCol]
  by_cases h : c ∈ tblNames t
  · rw [if_pos h]
    cases t with
    | nil => rfl
    | cons p ps =>
      rw [setColIn]
      by_cases hp : p.1 = c
      · rw [if_pos hp]
        exact hlen
      · rw [if_neg hp]
        rfl
  · rw [if_neg h]
    cases t with
    | nil => simpa [nRows] using hlen
    | cons p ps => rfl

theorem WF_setCol {t : Table} {c : String} {d : ColData}
    (h : WF t) (hlen : colLen d = nRows t) : WF (setCol t c d) := by
  refine ⟨nodup_tblNames_setCol h.1, fun q hq => ?_⟩
  rw [nRows_setCol hlen]
  rcases mem_setCol hq with rfl | hq2
  · exact hlen
  · exact h.2 q hq2

theorem colLen_getColD_mem {t : Table} {c : String} (h : WF t)
    (hc : c ∈ tblNames t) : colLen (getColD t c) = nRows t := by
  rcases getCol_some_of_mem hc with ⟨d, hd⟩
  rw [getColD, hd]
  exact h.2 (c, d) (getCol_mem hd)

theorem nRows_stripStep (t : Table) : nRows (stripStep t) = nRows t := by
  cases t with
  | nil => rfl
  | cons p ps => exact colLen_stripCol p.2

theorem WF_stripStep {t : Table} (h : WF t) : WF (stripStep t) := by
  refine ⟨by rw [tblNames_stripStep]; exact h.1, fun q hq => ?_⟩
  rcases List.mem_map.mp hq with ⟨p, hp, rfl⟩
  rw [nRows_stripStep]
  exact (colLen_stripCol p.2).trans (h.2 p hp)

theorem WF_yearStep {t u : Table} (h : yearStep t = .ok u) (hW : WF t) : WF u := by
  rcases yearStep_ok_cases h with ⟨_, rfl⟩ | ⟨d, hg, _, rfl⟩
  · exact hW
  · refine WF_setCol hW ?_
    rw [colLen_coerceNum]
    exact hW.2 _ (getCol_mem hg)

theorem nRows_renameCol (t : Table) (o n : String) :
    nRows (renameCol t o n) = nRows t := by
  cases t with
  | nil => rfl
  | cons p ps =>
    rw [renameCol, List.map_cons]
    by_cases hp : p.1 = o
    · rw [if_pos hp]
      rfl
    · rw [if_neg hp]
      rfl

theorem nodup_tblNames_renameCol {t : Table} {o n : String}
    (hnd : (tblNames t).Nodup) (hn : n ∉ tblNames t) :
    (tblNames (renameCol t o n)).Nodup := by
  rw [tblNames_renameCol]
  refine List.Nodup.map_on ?_ hnd
  intro x hx y hy hxy
  by_cases hxo : x = o
  · by_cases hyo : y = o
    · rw [hxo, hyo]
    · rw [if_pos hxo, if_neg hyo] at hxy
      exact absurd (hxy ▸ hy) hn
  · by_cases hyo : y = o
    · rw [if_neg hxo, if_pos hyo] at hxy
      exact absurd (hxy ▸ hx) hn
    · rwa [if_neg hxo, if_neg hyo] at hxy

theorem WF_renameCol {t : Table} {o n : String} (h : WF t)
    (hn : n ∉ tblNames t) : WF (renameCol t o n) := by
  refine ⟨nodup_tblNames_renameCol h.1 hn, fun q hq => ?_⟩
  rcases List.mem_map.mp hq with ⟨p, hp, rfl⟩
  rw [nRows_renameCol]
  by_cases hpo : p.1 = o
  · rw [if_pos hpo]
    exact h.2 p hp
  · rw [if_neg hpo]
    exact h.2 p hp

theorem nRows_resolveArea (t : Table) : nRows (resolveArea t) = nRows t := by
  rw [resolveArea]
  split_ifs
  · rfl
  · rcases areaAliases.find? (fun a => decide (a ∈ tblNames t)) with _ | a
    · rfl
    · exact nRows_renameCol t a "Area_Name"

theorem WF_resolveArea {t : Table} (h : WF t) : WF (resolveArea t) := by
  rw [resolveArea]
  by_cases hA : "Area_Name" ∈ tblNames t
  · rwa [if_pos hA]
  · rw [if_neg hA]
    rcases areaAliases.find? (fun a => decide (a ∈ tblNames t)) with _ | a
    · exact h
    · exact WF_renameCol h hA

theorem nRows_coerceStep (t : Table) : nRows (coerceStep t) = nRows t := by
  cases t with
  | nil => rfl
  | cons p ps =>
    rw [coerceStep, List.map_cons]
    by_cases hp : p.1 ∈ categoricalCols
    · rw [if_pos hp]
      rfl
    · rw [if_neg hp]
      exact colLen_coerceTry p.2

theorem WF_coerceStep {t : Table} (h : WF t) : WF (coerceStep t) := by
  refine ⟨by rw [tblNames_coerceStep]; exact h.1, fun q hq => ?_⟩
  rcases List.mem_map.mp hq with ⟨p, hp, rfl⟩
  rw [nRows_coerceStep]
  by_cases hpo : p.1 ∈ categoricalCols
  · rw [if_pos hpo]
    exact h.2 p hp
  · rw [if_neg hpo]
    exact (colLen_coerceTry p.2).trans (h.2 p hp)

theorem getColD_setCol_ne {t : Table} {c c' : String} (d : ColData)
    (hne : c' ≠ c) : getColD (setCol t c d) c' = getColD t c' := by
  rw [getColD, getColD, getCol_setCol_ne t d hne]

theorem getColD_eq_of_getCol_eq {t u : Table} {c : String}
    (h : getCol t c = getCol u c) : getColD t c = getColD u c := by
  rw [getColD, getColD, h]


/-! ## Claim C8: stability of the branch and the trailing steps -/

theorem canonName_idem (s : String) : canonName (canonName s) = canonName s := by
  rcases hf : STATE_MAP.find? (fun p => decide (p.1 = s)) with _ | q
  · have h1 : canonName s = s := by
      rw [canonName, hf]
      rfl
    rw [h1, h1]
  · have h1 : canonName s = q.2 := by
      rw [canonName, hf]
      rfl
    have hq : q ∈ STATE_MAP := List.mem_of_find?_eq_some hf
    have hkeys : ∀ p ∈ STATE_MAP,
        STATE_MAP.find? (fun r => decide (r.1 = p.2)) = none := by decide
    have h2 : canonName q.2 = q.2 := by
      rw [canonName, hkeys q hq]
      rfl
    rw [h1, h2]

theorem canonCol_idem (d : ColData) : canonCol (canonCol d) = canonCol d := by
  cases d with
  | num vs => rfl
  | obj vs =>
    show ColData.obj ((vs.map (Option.map canonName)).map (Option.map canonName)) =
      ColData.obj (vs.map (Option.map canonName))
    rw [List.map_map]
    congr 1
    refine List.map_congr_left (fun v _ => ?_)
    cases v with
    | none => rfl
    | some s =>
      show some (canonName (canonName s)) = some (canonName s)
      rw [canonName_idem]

theorem nodup_tblNames_defaultsStep {t : Table} (h : (tblNames t).Nodup) :
    (tblNames (defaultsStep t)).Nodup := by
  rw [defaultsStep]
  split_ifs
  · exact h
  · exact nodup_tblNames_setCol h
  · exact nodup_tblNames_setCol h
  · exact nodup_tblNames_setCol (nodup_tblNames_setCol h)

theorem defaultsStep_of_mem {t : Table} (hG : "Group_Name" ∈ tblNames t)
    (hS : "Sub_Group_Name" ∈ tblNames t) : defaultsStep t = t := by
  rw [defaultsStep, if_pos hG, if_pos hS]

theorem group_mem_defaultsStep (t : Table) :
    "Group_Name" ∈ tblNames (defaultsStep t) := by
  rw [defaultsStep]
  split_ifs with h1 h2 h3
  · exact h1
  · exact mem_tblNames_setCol_of_mem _ _ h1
  · exact mem_tblNames_setCol.mpr (Or.inr rfl)
  · exact mem_tblNames_setCol_of_mem _ _ (mem_tblNames_setCol.mpr (Or.inr rfl))

theorem sub_mem_defaultsStep (t : Table) :
    "Sub_Group_Name" ∈ tblNames (defaultsStep t) := by
  rw [defaultsStep]
  split_ifs with h1 h2 h3
  · exact h2
  · exact mem_tblNames_setCol.mpr (Or.inr rfl)
  · exact h3
  · exact mem_tblNames_setCol.mpr (Or.inr rfl)

theorem nRows_defaultsStep (t : Table) : nRows (defaultsStep t) = nRows t := by
  rw [defaultsStep]
  split_ifs
  · rfl
  · exact nRows_setCol (by simp [colLen])
  · exact nRows_setCol (by simp [colLen])
  · have h1 : nRows (setCol t "Group_Name"
        (ColData.obj (List.replicate (nRows t) (some "Overall")))) = nRows t :=
      nRows_setCol (by simp [colLen])
    rw [nRows_setCol (by simp [colLen]), h1]

theorem WF_defaultsStep {t : Table} (h : WF t) : WF (defaultsStep t) := by
  rw [defaultsStep]
  split_ifs
  · exact h
  · exact WF_setCol h (by simp [colLen])
  · exact WF_setCol h (by simp [colLen])
  · exact WF_setCol (WF_setCol h (by simp [colLen])) (by simp [colLen])

theorem propertyCols_stable {u : Table} (hnd : (tblNames u).Nodup)
    (hTC : getCol u "Total_Crimes" =
      some (ColData.num ((fill0 (getColD u "Cases_Property_Stolen")).map some)))
    (hTR : getCol u "Total_Recovered" =
      some (ColData.num ((fill0 (getColD u "Cases_Property_Recovered")).map some)))
    (hTVS : getCol u "Total_Value_Stolen" =
      some (ColData.num ((fill0 (getColD u "Value_of_Property_Stolen")).map some)))
    (hTVR : getCol u "Total_Value_Recovered" =
      some (ColData.num ((fill0 (getColD u "Value_of_Property_Recovered")).map some)))
    (hLV : getCol u "Loss_Value" =
      some (ColData.num ((List.zipWith (fun a b => a - b)
        (fill0 (getColD u "Value_of_Property_Stolen"))
        (fill0 (getColD u "Value_of_Property_Recovered"))).map some)))
    (hRR : getCol u "Recovery_Rate" =
      some (ColData.num ((List.zipWith recoveryRate
        (fill0 (getColD u "Cases_Property_Stolen"))
        (fill0 (getColD u "Cases_Property_Recovered"))).map some))) :
    propertyCols u = u := by
  simp only [propertyCols]
  rw [setCol_same hnd hTC, setCol_same hnd hTR, setCol_same hnd hTVS,
    setCol_same hnd hTVR, setCol_same hnd hLV, setCol_same hnd hRR]


/-! ## Claim C8: the main idempotence theorem for property-kind tables -/

set_option maxHeartbeats 1600000 in
theorem load_data_property_stable (fp : String) (P B t' : Table)
    (hWFP : WF P) (hObj : ObjFixed P) (hCo : CoerceFixed P) (hYi : YearInt P)
    (hpP : "Cases_Property_Stolen" ∈ tblNames P)
    (hpb : propertyBranch P = .ok B)
    (h : canonicalize (defaultsStep B) = .ok t') :
    load_data fp t' = .ok t' := by
  obtain ⟨hCPRP, hVPSP, hVPRP⟩ := propertyBranch_ok_mem hpb
  have hval : B = propertyCols P := propertyBranch_ok_val hpb
  rw [hval] at h
  set v1 := fill0 (getColD P "Cases_Property_Stolen") with hv1
  set P1 := setCol P "Total_Crimes" (ColData.num (v1.map some)) with hP1
  set v2 := fill0 (getColD P1 "Cases_Property_Recovered") with hv2
  set P2 := setCol P1 "Total_Recovered" (ColData.num (v2.map some)) with hP2
  set v3 := fill0 (getColD P2 "Value_of_Property_Stolen") with hv3
  set P3 := setCol P2 "Total_Value_Stolen" (ColData.num (v3.map some)) with hP3
  set v4 := fill0 (getColD P3 "Value_of_Property_Recovered") with hv4
  set P4 := setCol P3 "Total_Value_Recovered" (ColData.num (v4.map some)) with hP4
  set v5 := List.zipWith (fun a b => a - b) v3 v4 with hv5
  set P5 := setCol P4 "Loss_Value" (ColData.num (v5.map some)) with hP5
  set v6 := List.zipWith recoveryRate v1 v2 with hv6
  have hBeq : propertyCols P = setCol P5 "Recovery_Rate" (ColData.num (v6.map some)) := rfl
  rw [hBeq] at h
  set Q := setCol P5 "Recovery_Rate" (ColData.num (v6.map some)) with hQ
  set D := defaultsStep Q with hD
  have hnd1 : (tblNames P1).Nodup := by rw [hP1]; exact nodup_tblNames_setCol hWFP.1
  have hnd2 : (tblNames P2).Nodup := by rw [hP2]; exact nodup_tblNames_setCol hnd1
  have hnd3 : (tblNames P3).Nodup := by rw [hP3]; exact nodup_tblNames_setCol hnd2
  have hnd4 : (tblNames P4).Nodup := by rw [hP4]; exact nodup_tblNames_setCol hnd3
  have hnd5 : (tblNames P5).Nodup := by rw [hP5]; exact nodup_tblNames_setCol hnd4
  have hndQ : (tblNames Q).Nodup := by rw [hQ]; exact nodup_tblNames_setCol hnd5
  have hndD : (tblNames D).Nodup := by rw [hD]; exact nodup_tblNames_defaultsStep hndQ
  rcases hAo : getCol D "Area_Name" with _ | dA
  · rw [canonicalize_not_mem (getCol_eq_none_iff.mp hAo)] at h
    exact Except.noConfusion h
  · rw [canonicalize, hAo] at h
    have h2 : (Except.ok (setCol D "Area_Name" (canonCol dA)) : Except LoadError Table) =
        .ok t' := h
    have ht' : t' = setCol D "Area_Name" (canonCol dA) := (Except.ok.inj h2).symm
    rw [ht']
    set u := setCol D "Area_Name" (canonCol dA) with hu
    have hndu : (tblNames u).Nodup := by rw [hu]; exact nodup_tblNames_setCol hndD
    have hgu : ∀ c : String, c ≠ "Area_Name" → c ≠ "Group_Name" → c ≠ "Sub_Group_Name" →
        getCol u c = getCol Q c := by
      intro c h1 h2 h3
      rw [hu, getCol_setCol_ne _ _ h1, hD, getCol_defaultsStep_ne h2 h3]
    have hsrc : ∀ c : String, c ≠ "Area_Name" → c ≠ "Group_Name" → c ≠ "Sub_Group_Name" →
        c ≠ "Recovery_Rate" → c ≠ "Loss_Value" → c ≠ "Total_Value_Recovered" →
        c ≠ "Total_Value_Stolen" → c ≠ "Total_Recovered" → c ≠ "Total_Crimes" →
        getCol u c = getCol P c := by
      intro c h1 h2 h3 h4 h5 h6 h7 h8 h9
      rw [hgu c h1 h2 h3, hQ, getCol_setCol_ne _ _ h4, hP5, getCol_setCol_ne _ _ h5,
        hP4, getCol_setCol_ne _ _ h6, hP3, getCol_setCol_ne _ _ h7,
        hP2, getCol_setCol_ne _ _ h8, hP1, getCol_setCol_ne _ _ h9]
    have gCPS : getCol u "Cases_Property_Stolen" = getCol P "Cases_Property_Stolen" :=
      hsrc _ (by decide) (by decide) (by decide) (by decide) (by decide) (by decide)
        (by decide) (by decide) (by decide)
    have gCPR : getCol u "Cases_Property_Recovered" = getCol P "Cases_Property_Recovered" :=
      hsrc _ (by decide) (by decide) (by decide) (by decide) (by decide) (by decide)
        (by decide) (by decide) (by decide)
    have gVPS : getCol u "Value_of_Property_Stolen" = getCol P "Value_of_Property_Stolen" :=
      hsrc _ (by decide) (by decide) (by decide) (by decide) (by decide) (by decide)
        (by decide) (by decide) (by decide)
    have gVPR : getCol u "Value_of_Property_Recovered" =
        getCol P "Value_of_Property_Recovered" :=
      hsrc _ (by decide) (by decide) (by decide) (by decide) (by decide) (by decide)
        (by decide) (by decide) (by decide)
    have c2 : getColD P1 "Cases_Property_Recovered" =
        getColD P "Cases_Property_Recovered" := by
      rw [hP1, getColD_setCol_ne _ (by decide)]
    have c3 : getColD P2 "Value_of_Property_Stolen" =
        getColD P "Value_of_Property_Stolen" := by
      rw [hP2, getColD_setCol_ne _ (by decide), hP1, getColD_setCol_ne _ (by decide)]
    have c4 : getColD P3 "Value_of_Property_Recovered" =
        getColD P "Value_of_Property_Recovered" := by
      rw [hP3, getColD_setCol_ne _ (by decide), hP2, getColD_setCol_ne _ (by decide),
        hP1, getColD_setCol_ne _ (by decide)]
    have hv2P : v2 = fill0 (getColD P "Cases_Property_Recovered") := by rw [hv2, c2]
    have hv3P : v3 = fill0 (getColD P "Value_of_Property_Stolen") := by rw [hv3, c3]
    have hv4P : v4 = fill0 (getColD P "Value_of_Property_Recovered") := by rw [hv4, c4]
    have d1 : getColD u "Cases_Property_Stolen" = getColD P "Cases_Property_Stolen" :=
      getColD_eq_of_getCol_eq gCPS
    have d2 : getColD u "Cases_Property_Recovered" = getColD P "Cases_Property_Recovered" :=
      getColD_eq_of_getCol_eq gCPR
    have d3 : getColD u "Value_of_Property_Stolen" = getColD P "Value_of_Property_Stolen" :=
      getColD_eq_of_getCol_eq gVPS
    have d4 : getColD u "Value_of_Property_Recovered" =
        getColD P "Value_of_Property_Recovered" :=
      getColD_eq_of_getCol_eq gVPR
    have sTC : getCol u "Total_Crimes" = some (ColData.num (v1.map some)) := by
      rw [hgu _ (by decide) (by decide) (by decide), hQ, getCol_setCol_ne _ _ (by decide),
        hP5, getCol_setCol_ne _ _ (by decide), hP4, getCol_setCol_ne _ _ (by decide),
        hP3, getCol_setCol_ne _ _ (by decide), hP2, getCol_setCol_ne _ _ (by decide),
        hP1, getCol_setCol_self]
    have sTR : getCol u "Total_Recovered" = some (ColData.num (v2.map some)) := by
      rw [hgu _ (by decide) (by decide) (by decide), hQ, getCol_setCol_ne _ _ (by decide),
        hP5, getCol_setCol_ne _ _ (by decide), hP4, getCol_setCol_ne _ _ (by decide),
        hP3, getCol_setCol_ne _ _ (by decide), hP2, getCol_setCol_self]
    have sTVS : getCol u "Total_Value_Stolen" = some (ColData.num (v3.map some)) := by
      rw [hgu _ (by decide) (by decide) (by decide), hQ, getCol_setCol_ne _ _ (by decide),
        hP5, getCol_setCol_ne _ _ (by decide), hP4, getCol_setCol_ne _ _ (by decide),
        hP3, getCol_setCol_self]
    have sTVR : getCol u "Total_Value_Recovered" = some (ColData.num (v4.map some)) := by
      rw [hgu _ (by decide) (by decide) (by decide), hQ, getCol_setCol_ne _ _ (by decide),
        hP5, getCol_setCol_ne _ _ (by decide), hP4, getCol_setCol_self]
    have sLV : getCol u "Loss_Value" = some (ColData.num (v5.map some)) := by
      rw [hgu _ (by decide) (by decide) (by decide), hQ, getCol_setCol_ne _ _ (by decide),
        hP5, getCol_setCol_self]
    have sRR : getCol u "Recovery_Rate" = some (ColData.num (v6.map some)) := by
      rw [hgu _ (by decide) (by decide) (by decide), hQ, getCol_setCol_self]
    have hTC : getCol u "Total_Crimes" =
        some (ColData.num ((fill0 (getColD u "Cases_Property_Stolen")).map some)) := by
      rw [sTC, d1, ← hv1]
    have hTR : getCol u "Total_Recovered" =
        some (ColData.num ((fill0 (getColD u "Cases_Property_Recovered")).map some)) := by
      rw [sTR, d2, ← hv2P]
    have hTVS : getCol u "Total_Value_Stolen" =
        some (ColData.num ((fill0 (getColD u "Value_of_Property_Stolen")).map some)) := by
      rw [sTVS, d3, ← hv3P]
    have hTVR : getCol u "Total_Value_Recovered" =
        some (ColData.num ((fill0 (getColD u "Value_of_Property_Recovered")).map some)) := by
      rw [sTVR, d4, ← hv4P]
    have hLV : getCol u "Loss_Value" =
        some (ColData.num ((List.zipWith (fun a b => a - b)
          (fill0 (getColD u "Value_of_Property_Stolen"))
          (fill0 (getColD u "Value_of_Property_Recovered"))).map some)) := by
      rw [sLV, d3, d4, ← hv3P, ← hv4P, ← hv5]
    have hRR : getCol u "Recovery_Rate" =
        some (ColData.num ((List.zipWith recoveryRate
          (fill0 (getColD u "Cases_Property_Stolen"))
          (fill0 (getColD u "Cases_Property_Recovered"))).map some)) := by
      rw [sRR, d1, d2, ← hv1, ← hv2P, ← hv6]
    have hCPSu : "Cases_Property_Stolen" ∈ tblNames u := by
      rcases getCol_some_of_mem hpP with ⟨dC, hdC⟩
      exact mem_of_getCol_some (show getCol u "Cases_Property_Stolen" = some dC by
        rw [gCPS, hdC])
    have hCPRu : "Cases_Property_Recovered" ∈ tblNames u := by
      rcases getCol_some_of_mem hCPRP with ⟨dC, hdC⟩
      exact mem_of_getCol_some (show getCol u "Cases_Property_Recovered" = some dC by
        rw [gCPR, hdC])
    have hVPSu : "Value_of_Property_Stolen" ∈ tblNames u := by
      rcases getCol_some_of_mem hVPSP with ⟨dC, hdC⟩
      exact mem_of_getCol_some (show getCol u "Value_of_Property_Stolen" = some dC by
        rw [gVPS, hdC])
    have hVPRu : "Value_of_Property_Recovered" ∈ tblNames u := by
      rcases getCol_some_of_mem hVPRP with ⟨dC, hdC⟩
      exact mem_of_getCol_some (show getCol u "Value_of_Property_Recovered" = some dC by
        rw [gVPR, hdC])
    have hgA : getCol u "Area_Name" = some (canonCol dA) := by
      rw [hu]
      exact getCol_setCol_self _ _ _
    have hAu : "Area_Name" ∈ tblNames u := mem_of_getCol_some hgA
    have hGu : "Group_Name" ∈ tblNames u := by
      rw [hu]
      exact mem_tblNames_setCol_of_mem _ _ (by rw [hD]; exact group_mem_defaultsStep Q)
    have hSu : "Sub_Group_Name" ∈ tblNames u := by
      rw [hu]
      exact mem_tblNames_setCol_of_mem _ _ (by rw [hD]; exact sub_mem_defaultsStep Q)
    have hQP : Q = propertyCols P := hBeq.symm
    have hObjQ : ObjFixed Q := by rw [hQP]; exact ObjFixed_propertyCols hObj
    have hObjD : ObjFixed D := by rw [hD]; exact ObjFixed_defaultsStep hObjQ
    have hObju : ObjFixed u := by
      rw [hu]
      exact ObjFixed_setCol hObjD (objCellsFixed_canonCol (hObjD _ (getCol_mem hAo)))
    have hCou : CoerceFixed u := by
      rw [hu]
      refine CoerceFixed_setCol_cat ?_ (by decide)
      rw [hD]
      refine CoerceFixed_defaultsStep ?_
      rw [hQP]
      exact CoerceFixed_propertyCols hCo
    have hYiu : YearInt u := by
      rw [hu]
      refine YearInt_setCol_ne ?_ (by decide)
      rw [hD]
      refine YearInt_defaultsStep ?_
      rw [hQP]
      exact YearInt_propertyCols hYi
    have hyu : yearStep (stripStep u) = .ok u := by
      rw [stripStep_of_ObjFixed hObju]
      exact yearStep_of_YearInt hndu hYiu
    have hcoer : coerceStep (resolveArea u) = u := by
      rw [resolveArea_of_mem hAu]
      exact coerceStep_of_CoerceFixed hCou
    have hpbu : propertyBranch u = .ok u := by
      rw [propertyBranch_eq_ok hCPRu hVPSu hVPRu,
        propertyCols_stable hndu hTC hTR hTVS hTVR hLV hRR]
    rw [load_data_property hyu (by rw [hcoer]; exact hCPSu) (by rw [hcoer]; exact hpbu)]
    rw [defaultsStep_of_mem hGu hSu]
    have hcanu : canonicalize u = .ok (setCol u "Area_Name" (canonCol (canonCol dA))) := by
      rw [canonicalize, hgA]
    rw [hcanu, canonCol_idem, setCol_same hndu hgA]

/-- Claim **C8** (corrected).  Normalization is *not* idempotent on every
already-normalized table: `C8_counterexample` exhibits a generic-kind output
on which a second pass goes down the generic branch again and rebases
`Total_Crimes` on the zeroed `Total_Recovered` column, because on the second
pass `Total_Recovered` is now a numeric column whose name matches the
case/crime/total keyword search of lines 84-87 ahead of the original base
column.  For property-kind inputs the claim holds, which this theorem
states: whenever a well-formed table carrying a `Cases_Property_Stolen`
column normalizes to `t'` (success of the first pass forces the three
optional columns to be present and the `Year` column, if any, to survive
the line-52 cast), running `load_data` on `t'` again returns `t'` unchanged
— every cell of every column, including the derived `Total_Crimes`,
`Total_Recovered`, `Loss_Value` and `Recovery_Rate` columns, is
identical. -/
theorem C8_property_idempotent (fp : String) (t t' : Table) (hWF : WF t)
    (hp : "Cases_Property_Stolen" ∈ tblNames t)
    (h : load_data fp t = .ok t') :
    load_data fp t' = .ok t' := by
  rcases hys : yearStep (stripStep t) with e | t2
  · rw [load_data_year_error hys] at h
    exact Except.noConfusion h
  · have hpP : "Cases_Property_Stolen" ∈ tblNames (coerceStep (resolveArea t2)) :=
      (tblNames_pre_mem hys (by decide) (by decide)).mpr hp
    rcases hpb : propertyBranch (coerceStep (resolveArea t2)) with e | B
    · rw [load_data_property_err hys hpP hpb] at h
      exact Except.noConfusion h
    · rw [load_data_property hys hpP hpb] at h
      exact load_data_property_stable fp _ B t'
        (WF_coerceStep (WF_resolveArea (WF_yearStep hys (WF_stripStep hWF))))
        (ObjFixed_coerceStep (ObjFixed_resolveArea (ObjFixed_yearStep hys
          (ObjFixed_stripStep t))))
        (CoerceFixed_coerceStep _)
        (YearInt_coerceStep (YearInt_resolveArea (YearInt_yearStep hys)))
        hpP hpb h

/-- Witness for `C8_property_idempotent` at the concrete table `tblC8In`. -/
theorem C8_witness : load_data "pw8.csv" tblC8Out = .ok tblC8Out :=
  C8_property_idempotent "pw8.csv" tblC8In tblC8Out ⟨by decide, by decide⟩ (by decide) rfl

end IndiaCrime
